import Mathlib

/-!
# installd: command protocol server and layout migration

A shallow embedding of `native/cmds/installd/installd.c`.

* Bytes are natural numbers, C strings are lists of non-zero bytes, and a
  `char` buffer is a list of bytes addressed by offset.
* A read or write outside the buffer is undefined behaviour in C; the
  functions below return `none` (or `TokOut.fault`) there.
* The collaborators that live outside this file (`install`, `dexopt`,
  `get_size`, ..., and libc's `atoi`) are fields of `Ext`.
-/

namespace Installd

/-- A sequence of bytes (`char` values as numbers `0..255`). -/
abbrev Bytes := List Nat

/-- The bytes of a string literal. -/
def str (s : String) : Bytes := s.data.map Char.toNat

/-- input buffer for commands -/
def BUFFER_MAX : Nat := 1024
/-- max number of arguments in buffer -/
def TOKEN_MAX : Nat := 8
/-- largest reply allowed -/
def REPLY_MAX : Nat := 256

/-- The C-locale `isspace`: space, `\t`, `\n`, `\v`, `\f`, `\r`. -/
def isspace (c : Nat) : Bool := c == 32 || (9 ≤ c && c ≤ 13)

/-- The C string that starts at offset `off` of `buf`: the bytes up to the
first NUL. -/
def cstr (buf : Bytes) (off : Nat) : Bytes := (buf.drop off).takeWhile (fun b => b != 0)

/-! ## The tokenizer loop of `execute` -/

/-- The variables of the tokenizer loop: the buffer, the offset of the `cmd`
pointer in it, the argument counter `n`, and `arg[0..n]` as offsets. -/
structure TokState where
  cmd : Bytes
  p : Nat
  n : Nat
  arg : List Nat
deriving DecidableEq

/-- How the tokenizer loop ends: the `while` condition read a NUL
(`finished`), `n == TOKEN_MAX` jumped to `done` (`too_many`), or the loop
read outside the buffer (`fault`). -/
inductive TokOut where
  | finished (st : TokState)
  | too_many (st : TokState)
  | fault
deriving DecidableEq

/-- The loop `while (*cmd) { if (isspace(*cmd)) { *cmd++ = 0; n++;
arg[n] = cmd; if (n == TOKEN_MAX) goto done; } cmd++; }`.
Each iteration advances `cmd`, so `fuel` iterations are enough when
`fuel` exceeds the buffer length. -/
def tokenize_loop : Nat → TokState → TokOut
  | 0, _ => .fault
  | fuel + 1, st =>
    match st.cmd[st.p]? with
    | none => .fault
    | some c =>
      if c = 0 then .finished st
      else if isspace c then
        let st1 : TokState :=
          { cmd := st.cmd.set st.p 0, p := st.p + 1, n := st.n + 1,
            arg := st.arg ++ [st.p + 1] }
        if st1.n = TOKEN_MAX then .too_many st1
        else tokenize_loop fuel { st1 with p := st1.p + 1 }
      else tokenize_loop fuel { st with p := st.p + 1 }

/-- The tokenizer from its entry: `n = 0`, `arg[0] = cmd`. -/
def tokenize (cmd : Bytes) : TokOut :=
  tokenize_loop (cmd.length + 1) { cmd := cmd, p := 0, n := 0, arg := [0] }

/-! ## The collaborators and the handlers -/

/-- The functions the handlers call that are defined outside this file.
They act on the file system; the protocol code only sees the `int` they
return, so each is a function of its arguments. `get_size` also returns what
it leaves in its four `int64_t` out-parameters. -/
structure Ext where
  atoi : Bytes → Int
  atoll : Bytes → Int
  install : Bytes → Int → Int → Bytes → Int
  dexopt : Bytes → Int → Int → Bytes → Bytes → Int → Int → Int
  mark_boot_complete : Bytes → Int
  move_dex : Bytes → Bytes → Bytes → Int
  rm_dex : Bytes → Bytes → Int
  uninstall : Bytes → Int → Int
  renamepkg : Bytes → Bytes → Int
  fix_uid : Bytes → Int → Int → Int
  free_cache : Int → Int
  delete_cache : Bytes → Int → Int
  delete_code_cache : Bytes → Int → Int
  get_size : Bytes → Int → Bytes → Bytes → Bytes → Bytes → Bytes → Int × Int × Int × Int × Int
  delete_user_data : Bytes → Int → Int
  make_user_data : Bytes → Int → Int → Bytes → Int
  make_user_config : Int → Int
  delete_user : Int → Int
  movefiles : Int
  linklib : Bytes → Bytes → Int → Int
  idmap : Bytes → Bytes → Int → Int
  restorecon_data : Bytes → Bytes → Int → Int

/-- The decimal digits of a natural number, as bytes. -/
def fmt_nat (n : Nat) : Bytes := (Nat.toDigits 10 n).map Char.toNat

/-- What `%d` (and `%lld`) prints. -/
def fmt_d (r : Int) : Bytes := if r < 0 then 45 :: fmt_nat (-r).toNat else fmt_nat r.toNat

/-- What `snprintf(dst, size, ...)` stores for the formatted text `text`,
without the terminating NUL: at most `size - 1` bytes. -/
def snprintf_stored (size : Nat) (text : Bytes) : Bytes := text.take (size - 1)

/-- A handler sees `arg + 1`; `argv arg i` is its `arg[i]`. -/
def argv (arg : List Bytes) (i : Nat) : Bytes := arg.getD i []

/-- A handler returns its `int` and what it left in `reply` (a C string;
`[]` when it did not touch `reply`, whose first byte `execute` set to 0). -/
abbrev HandlerResult := Int × Bytes

def do_ping (_ext : Ext) (_arg : List Bytes) : HandlerResult := (0, [])

def do_install (ext : Ext) (arg : List Bytes) : HandlerResult :=
  (ext.install (argv arg 0) (ext.atoi (argv arg 1)) (ext.atoi (argv arg 2)) (argv arg 3), [])

def do_dexopt (ext : Ext) (arg : List Bytes) : HandlerResult :=
  (ext.dexopt (argv arg 0) (ext.atoi (argv arg 1)) (ext.atoi (argv arg 2)) (argv arg 3)
    (argv arg 4) (ext.atoi (argv arg 5)) 0, [])

def do_mark_boot_complete (ext : Ext) (arg : List Bytes) : HandlerResult :=
  (ext.mark_boot_complete (argv arg 0), [])

def do_move_dex (ext : Ext) (arg : List Bytes) : HandlerResult :=
  (ext.move_dex (argv arg 0) (argv arg 1) (argv arg 2), [])

def do_rm_dex (ext : Ext) (arg : List Bytes) : HandlerResult :=
  (ext.rm_dex (argv arg 0) (argv arg 1), [])

def do_remove (ext : Ext) (arg : List Bytes) : HandlerResult :=
  (ext.uninstall (argv arg 0) (ext.atoi (argv arg 1)), [])

def do_rename (ext : Ext) (arg : List Bytes) : HandlerResult :=
  (ext.renamepkg (argv arg 0) (argv arg 1), [])

def do_fixuid (ext : Ext) (arg : List Bytes) : HandlerResult :=
  (ext.fix_uid (argv arg 0) (ext.atoi (argv arg 1)) (ext.atoi (argv arg 2)), [])

def do_free_cache (ext : Ext) (arg : List Bytes) : HandlerResult :=
  (ext.free_cache (ext.atoll (argv arg 0)), [])

def do_rm_cache (ext : Ext) (arg : List Bytes) : HandlerResult :=
  (ext.delete_cache (argv arg 0) (ext.atoi (argv arg 1)), [])

def do_rm_code_cache (ext : Ext) (arg : List Bytes) : HandlerResult :=
  (ext.delete_code_cache (argv arg 0) (ext.atoi (argv arg 1)), [])

/-- The text `do_get_size` formats: `"%lld %lld %lld %lld"`. -/
def get_size_text (codesize datasize cachesize asecsize : Int) : Bytes :=
  fmt_d codesize ++ [32] ++ fmt_d datasize ++ [32] ++ fmt_d cachesize ++ [32] ++ fmt_d asecsize

def do_get_size (ext : Ext) (arg : List Bytes) : HandlerResult :=
  match ext.get_size (argv arg 0) (ext.atoi (argv arg 1)) (argv arg 2) (argv arg 3)
      (argv arg 4) (argv arg 5) (argv arg 6) with
  | (res, codesize, datasize, cachesize, asecsize) =>
    (res, snprintf_stored REPLY_MAX (get_size_text codesize datasize cachesize asecsize))

def do_rm_user_data (ext : Ext) (arg : List Bytes) : HandlerResult :=
  (ext.delete_user_data (argv arg 0) (ext.atoi (argv arg 1)), [])

def do_mk_user_data (ext : Ext) (arg : List Bytes) : HandlerResult :=
  (ext.make_user_data (argv arg 0) (ext.atoi (argv arg 1)) (ext.atoi (argv arg 2)) (argv arg 3), [])

def do_mk_user_config (ext : Ext) (arg : List Bytes) : HandlerResult :=
  (ext.make_user_config (ext.atoi (argv arg 0)), [])

def do_rm_user (ext : Ext) (arg : List Bytes) : HandlerResult :=
  (ext.delete_user (ext.atoi (argv arg 0)), [])

def do_movefiles (ext : Ext) (_arg : List Bytes) : HandlerResult := (ext.movefiles, [])

def do_linklib (ext : Ext) (arg : List Bytes) : HandlerResult :=
  (ext.linklib (argv arg 0) (argv arg 1) (ext.atoi (argv arg 2)), [])

def do_idmap (ext : Ext) (arg : List Bytes) : HandlerResult :=
  (ext.idmap (argv arg 0) (argv arg 1) (ext.atoi (argv arg 2)), [])

def do_restorecon_data (ext : Ext) (arg : List Bytes) : HandlerResult :=
  (ext.restorecon_data (argv arg 0) (argv arg 1) (ext.atoi (argv arg 2)), [])

def do_patchoat (ext : Ext) (arg : List Bytes) : HandlerResult :=
  (ext.dexopt (argv arg 0) (ext.atoi (argv arg 1)) (ext.atoi (argv arg 2)) (argv arg 3)
    (argv arg 4) 0 1, [])

/-- The function pointers of the dispatch table, by name. -/
inductive Handler where
  | do_ping | do_install | do_dexopt | do_mark_boot_complete | do_move_dex | do_rm_dex
  | do_remove | do_rename | do_fixuid | do_free_cache | do_rm_cache | do_rm_code_cache
  | do_get_size | do_rm_user_data | do_movefiles | do_linklib | do_mk_user_data
  | do_mk_user_config | do_rm_user | do_idmap | do_restorecon_data | do_patchoat
deriving DecidableEq

/-- The call through a function pointer of the table. -/
def Handler.call : Handler → Ext → List Bytes → HandlerResult
  | .do_ping => Installd.do_ping
  | .do_install => Installd.do_install
  | .do_dexopt => Installd.do_dexopt
  | .do_mark_boot_complete => Installd.do_mark_boot_complete
  | .do_move_dex => Installd.do_move_dex
  | .do_rm_dex => Installd.do_rm_dex
  | .do_remove => Installd.do_remove
  | .do_rename => Installd.do_rename
  | .do_fixuid => Installd.do_fixuid
  | .do_free_cache => Installd.do_free_cache
  | .do_rm_cache => Installd.do_rm_cache
  | .do_rm_code_cache => Installd.do_rm_code_cache
  | .do_get_size => Installd.do_get_size
  | .do_rm_user_data => Installd.do_rm_user_data
  | .do_movefiles => Installd.do_movefiles
  | .do_linklib => Installd.do_linklib
  | .do_mk_user_data => Installd.do_mk_user_data
  | .do_mk_user_config => Installd.do_mk_user_config
  | .do_rm_user => Installd.do_rm_user
  | .do_idmap => Installd.do_idmap
  | .do_restorecon_data => Installd.do_restorecon_data
  | .do_patchoat => Installd.do_patchoat

structure cmdinfo where
  name : Bytes
  numargs : Nat
  func : Handler
deriving DecidableEq

def cmds : List cmdinfo := [
  { name := str "ping",             numargs := 0, func := .do_ping },
  { name := str "install",          numargs := 4, func := .do_install },
  { name := str "dexopt",           numargs := 6, func := .do_dexopt },
  { name := str "markbootcomplete", numargs := 1, func := .do_mark_boot_complete },
  { name := str "movedex",          numargs := 3, func := .do_move_dex },
  { name := str "rmdex",            numargs := 2, func := .do_rm_dex },
  { name := str "remove",           numargs := 2, func := .do_remove },
  { name := str "rename",           numargs := 2, func := .do_rename },
  { name := str "fixuid",           numargs := 3, func := .do_fixuid },
  { name := str "freecache",        numargs := 1, func := .do_free_cache },
  { name := str "rmcache",          numargs := 2, func := .do_rm_cache },
  { name := str "rmcodecache",      numargs := 2, func := .do_rm_code_cache },
  { name := str "getsize",          numargs := 7, func := .do_get_size },
  { name := str "rmuserdata",       numargs := 2, func := .do_rm_user_data },
  { name := str "movefiles",        numargs := 0, func := .do_movefiles },
  { name := str "linklib",          numargs := 3, func := .do_linklib },
  { name := str "mkuserdata",       numargs := 4, func := .do_mk_user_data },
  { name := str "mkuserconfig",     numargs := 1, func := .do_mk_user_config },
  { name := str "rmuser",           numargs := 1, func := .do_rm_user },
  { name := str "idmap",            numargs := 3, func := .do_idmap },
  { name := str "restorecondata",   numargs := 3, func := .do_restorecon_data },
  { name := str "patchoat",         numargs := 5, func := .do_patchoat } ]

/-! ## The socket -/

/-- The connected socket as the daemon sees it: the bytes the peer sends
before the stream ends, the bytes written so far, and how many more bytes the
peer takes before a write fails. -/
structure Sock where
  input : Bytes
  output : Bytes
  wcap : Nat
deriving DecidableEq

/-- The loop of `readx`: 0 and the `count` bytes read, or -1 when the stream
ends first (what was read before is stored all the same). -/
def readx (s : Sock) (count : Nat) : Int × Sock × Bytes :=
  if count ≤ s.input.length then
    (0, { s with input := s.input.drop count }, s.input.take count)
  else (-1, { s with input := [] }, s.input)

/-- The loop of `writex`: 0 when all of `data` is written, -1 when a write
fails. -/
def writex (s : Sock) (data : Bytes) : Int × Sock :=
  if data.length ≤ s.wcap then
    (0, { s with output := s.output ++ data, wcap := s.wcap - data.length })
  else (-1, { s with output := s.output ++ data.take s.wcap, wcap := 0 })

/-- An `unsigned short` in host (little-endian) byte order. -/
def le16 (count : Nat) : Bytes := [count % 256, count / 256 % 256]

/-- The buffer `buf` with `data` stored from offset `off`. -/
def write_at (buf : Bytes) (off : Nat) (data : Bytes) : Bytes :=
  buf.take off ++ data ++ buf.drop (off + data.length)

/-! ## `execute` -/

/-- What a call of `execute` leaves: its return value, the socket, the
buffer, and the handler it called with the arguments it passed. -/
structure ExecOut where
  ret : Int
  s : Sock
  cmd : Bytes
  called : Option (Handler × List Bytes)
deriving DecidableEq

/-- The text of the reply: `"%d %s"` when `reply[0]` is set, else `"%d"`. -/
def reply_text (ret : Int) (reply : Bytes) : Bytes :=
  if reply ≠ [] then fmt_d ret ++ [32] ++ reply else fmt_d ret

/-- The code of `execute` from the label `done`: format the reply at the
`cmd` pointer, clamp the length to `BUFFER_MAX`, write the 16-bit count and
then `count` bytes from `cmd`. -/
def execute_done (s : Sock) (st : TokState) (ret : Int) (reply : Bytes)
    (called : Option (Handler × List Bytes)) : Option ExecOut :=
  let text := reply_text ret reply
  let stored := snprintf_stored BUFFER_MAX text ++ [0]
  if st.p + stored.length ≤ st.cmd.length then
    let cmd1 := write_at st.cmd st.p stored
    let n := text.length
    let n := if n > BUFFER_MAX then BUFFER_MAX else n
    let count := n % 65536
    match writex s (le16 count) with
    | (0, s1) =>
      if st.p + count ≤ cmd1.length then
        match writex s1 ((cmd1.drop st.p).take count) with
        | (0, s2) => some { ret := 0, s := s2, cmd := cmd1, called := called }
        | (_, s2) => some { ret := -1, s := s2, cmd := cmd1, called := called }
      else none
    | (_, s1) => some { ret := -1, s := s1, cmd := cmd1, called := called }
  else none

/-- The scan of the table: the first entry whose name `strcmp` finds equal
to `arg[0]`. -/
def lookup (arg0 : Bytes) : List cmdinfo → Option cmdinfo
  | [] => none
  | c :: cs => if c.name = arg0 then some c else lookup arg0 cs

/-- The function `execute(s, cmd)`; `none` where it reads or writes outside
`cmd`. -/
def execute (ext : Ext) (s : Sock) (cmd : Bytes) : Option ExecOut :=
  match tokenize cmd with
  | .fault => none
  | .too_many st => execute_done s st (-1) [] none
  | .finished st =>
    match lookup (cstr st.cmd 0) cmds with
    | some c =>
      if st.n ≠ c.numargs then execute_done s st (-1) [] none
      else
        let arg := (st.arg.drop 1).map (cstr st.cmd)
        match c.func.call ext arg with
        | (ret, reply) => execute_done s st ret reply (some (c.func, arg))
    | none => execute_done s st (-1) [] none

/-! ## The connection loop of `main` -/

/-- How one turn of the inner `for (;;)` of `main` ends: `brk` leaves the
loop before `execute` is reached (the connection is closed), `cont` goes
round again after `execute` returned 0, `brk_exec` leaves the loop because
`execute` returned non-zero, `fault` is undefined behaviour inside
`execute`. -/
inductive IterOut where
  | brk (s : Sock) (buf : Bytes)
  | cont (s : Sock) (buf : Bytes) (called : Option (Handler × List Bytes))
  | brk_exec (s : Sock) (buf : Bytes) (called : Option (Handler × List Bytes))
  | fault
deriving DecidableEq

/-- The test `if (execute(s, buf)) break;`. -/
def after_execute : Option ExecOut → IterOut
  | none => .fault
  | some out =>
    if out.ret ≠ 0 then .brk_exec out.s out.cmd out.called
    else .cont out.s out.cmd out.called

/-- One turn of the inner loop: read the count, check it, read the payload
into `buf`, terminate it, call `execute`. (The reload of the SELinux context
touches neither the socket nor `buf`.) -/
def conn_iter (ext : Ext) (s : Sock) (buf : Bytes) : IterOut :=
  match readx s 2 with
  | (0, s1, cb) =>
    let count := cb.getD 0 0 + 256 * cb.getD 1 0
    if count < 1 ∨ count ≥ BUFFER_MAX then .brk s1 buf
    else
      match readx s1 count with
      | (0, s2, data) =>
        after_execute (execute ext s2 (write_at (write_at buf 0 data) count [0]))
      | (_, s2, data) => .brk s2 (write_at buf 0 data)
  | (_, s1, _) => .brk s1 buf

/-- The inner loop of `main` on one accepted connection, followed by
`close(s)`: the socket at close, the buffer, and the handler calls made, in
order. Every turn that goes round again has consumed input, so
`fuel` turns are enough when `fuel` exceeds the length of the input. -/
def serve_connection (ext : Ext) : Nat → Sock → Bytes → List (Handler × List Bytes) →
    Option (Sock × Bytes × List (Handler × List Bytes))
  | 0, _, _, _ => none
  | fuel + 1, s, buf, calls =>
    match conn_iter ext s buf with
    | .brk s1 buf1 => some (s1, buf1, calls)
    | .brk_exec s1 buf1 called => some (s1, buf1, calls ++ called.toList)
    | .cont s1 buf1 called => serve_connection ext fuel s1 buf1 (calls ++ called.toList)
    | .fault => none

/-! ## The layout migration: the system underneath -/

/-- The calls `initialize_directories` makes on the file system, with their
arguments. -/
inductive Op where
  | access (path : String) (mode : Nat)
  | mkdir (path : String) (mode : Nat)
  | chown (path : String) (uid gid : Nat)
  | chmod (path : String) (mode : Nat)
  | symlink (target linkpath : String)
  | rename (oldpath newpath : String)
  | fs_prepare_dir (path : String) (mode uid gid : Nat)
  | selinux_android_restorecon (path : String) (flags : Nat)
  | opendir (path : String)
  | ensure_media_user_dirs (userid : Nat)
  | ensure_config_user_dirs (userid : Nat)
  | copy_dir_files (srcname dstname : String) (owner group : Nat)
  | delete_dir_contents (pathname : String) (also_delete_dir : Nat)
  | fs_read_atomic_int (path : String)
  | fs_write_atomic_int (path : String) (value : Int)
deriving DecidableEq

/-- An entry that `readdir` returns. -/
structure Dirent where
  d_name : String
  d_type : Nat
deriving DecidableEq

/-- The system under `initialize_directories`, over a type `σ` of file
system states. `exec` performs a call and says whether it succeeded (the
calls return 0, or -1 or another non-zero value on failure, and the code only
tests for that); `fs_read_atomic_int` gives the integer read, `opendir` the
entries that `readdir` then returns. `atoi` and `multiuser_get_uid` are
the library functions of those names. -/
structure Sys (σ : Type) where
  exec : σ → Op → Bool × σ
  fs_read_atomic_int : σ → String → Option Int
  opendir : σ → String → Option (List Dirent)
  atoi : String → Int
  multiuser_get_uid : Nat → Nat → Nat

/-- What the run leaves in the log: the calls with their outcome and the
messages of `ALOGD` and `ALOGE`. -/
inductive Ev where
  | call (op : Op) (ok : Bool)
  | alogd (msg : String)
  | aloge (msg : String)
deriving DecidableEq

/-- A point of a run: the file system and the log so far. -/
structure Run (σ : Type) where
  st : σ
  tr : List Ev

/-- How a stretch of `initialize_directories` ends: it falls through
(`ok`), or it jumps to `fail` with the value of `res`. -/
inductive Result (σ : Type) where
  | ok (r : Run σ)
  | fail (res : Int) (r : Run σ)

/-- A stretch of code. -/
abbrev Section (σ : Type) := Run σ → Result σ

/-- Make a call and log it. -/
def call {σ : Type} (sys : Sys σ) (op : Op) (r : Run σ) : Bool × Run σ :=
  ((sys.exec r.st op).1, { st := (sys.exec r.st op).2, tr := r.tr ++ [.call op (sys.exec r.st op).1] })

/-- Fall through. -/
def skip {σ : Type} : Section σ := fun r => .ok r

/-- Do `f`, then `g` unless `f` jumped to `fail`. -/
def seq {σ : Type} (f g : Section σ) : Section σ := fun r =>
  match f r with
  | .ok r1 => g r1
  | .fail res r1 => .fail res r1

/-- The pattern `if (op fails) { res = code; goto fail; }`. -/
def must {σ : Type} (sys : Sys σ) (op : Op) (code : Int) : Section σ := fun r =>
  if (call sys op r).1 then .ok (call sys op r).2 else .fail code (call sys op r).2

/-- A branch on the outcome of a call: `ft` when it succeeded, `ff` when it
failed. -/
def test {σ : Type} (sys : Sys σ) (op : Op) (ft ff : Section σ) : Section σ := fun r =>
  if (call sys op r).1 then ft (call sys op r).2 else ff (call sys op r).2

/-- The message of `ALOGD`. -/
def alogd {σ : Type} (msg : String) : Section σ := fun r =>
  .ok { r with tr := r.tr ++ [.alogd msg] }

/-- The message of `ALOGE`. -/
def aloge {σ : Type} (msg : String) : Section σ := fun r =>
  .ok { r with tr := r.tr ++ [.aloge msg] }

/-- The statements `res = code; goto fail;`. -/
def goto_fail {σ : Type} (code : Int) : Section σ := fun r => .fail code r

/-- The pattern `if (op fails) { ALOGE(msg); res = code; goto fail; }`. -/
def must_log {σ : Type} (sys : Sys σ) (op : Op) (msg : String) (code : Int) : Section σ :=
  test sys op skip (seq (aloge msg) (goto_fail code))

/-- The loop `while ((dirent = readdir(dir))) body`. -/
def for_each {σ : Type} (body : Dirent → Section σ) : List Dirent → Section σ
  | [] => skip
  | d :: ds => seq (body d) (for_each body ds)

/-- The statements `dir = opendir(path); if (dir != NULL) { k } `, where `k`
sees the entries of the directory. -/
def with_opendir {σ : Type} (sys : Sys σ) (path : String) (k : List Dirent → Section σ) :
    Section σ := fun r =>
  match sys.opendir r.st path with
  | some entries => k entries { r with tr := r.tr ++ [.call (.opendir path) true] }
  | none => .ok { r with tr := r.tr ++ [.call (.opendir path) false] }

/-! ## The layout migration: `initialize_directories` -/

def R_OK : Nat := 4
def F_OK : Nat := 0
def DT_DIR : Nat := 4
def AID_SYSTEM : Nat := 1000
def AID_MEDIA_RW : Nat := 1023
/-- The name of the per-user root under the data root (`/data/user`). -/
def SECONDARY_USER_PREFIX : String := "user/"
/-- The name of the legacy data directory under the data root (`/data/data`). -/
def PRIMARY_USER_PREFIX : String := "data/"

/-- The globals that `initialize_globals` sets and `initialize_directories`
reads: the paths of the data root and of the media root, each ending in `/`. -/
structure Globals where
  android_data_dir : String
  android_media_dir : String

/-- The test that skips the entries `.` and `..`. -/
def is_dot_or_dotdot (name : String) : Bool := name == "." || name == ".."

/-- The mode, owner and group of the media directories; `dbg` says that
`MY_DEBUG_ROOT` is defined. -/
def media_mode (dbg : Bool) : Nat := if dbg then 0o777 else 0o770
def media_owner (dbg : Bool) : Nat := if dbg then 2000 else AID_MEDIA_RW

/-- Lines 390-411: make `/data/user` if necessary. -/
def make_user_data_dir {σ : Type} (sys : Sys σ) (g : Globals) (dbg : Bool) : Section σ :=
  let user_data_dir := g.android_data_dir ++ SECONDARY_USER_PREFIX
  test sys (.access user_data_dir R_OK) skip
    (if dbg then must sys (.mkdir user_data_dir 0o777) (-77)
     else
      seq (must sys (.mkdir user_data_dir 0o711) (-2)) <|
      seq (must sys (.chown user_data_dir AID_SYSTEM AID_SYSTEM) (-3)) <|
      must sys (.chmod user_data_dir 0o711) (-4))

/-- Lines 412-418: make the symlink `/data/user/0` to `/data/data` if
necessary. -/
def make_primary_symlink {σ : Type} (sys : Sys σ) (g : Globals) : Section σ :=
  let legacy_data_dir := g.android_data_dir ++ PRIMARY_USER_PREFIX
  let primary_data_dir := g.android_data_dir ++ SECONDARY_USER_PREFIX ++ "0"
  test sys (.access primary_data_dir R_OK) skip
    (must sys (.symlink legacy_data_dir primary_data_dir) (-18))

/-- Lines 476-506: media directories for the users that exist. -/
def ensure_user_media_dirs {σ : Type} (sys : Sys σ) (g : Globals) (dbg : Bool) : Section σ :=
  let user_data_dir := g.android_data_dir ++ SECONDARY_USER_PREFIX
  with_opendir sys user_data_dir (for_each fun dirent =>
    if dirent.d_type = DT_DIR then
      if is_dot_or_dotdot dirent.d_name then skip
      else
        must sys (.fs_prepare_dir (g.android_media_dir ++ dirent.d_name) (media_mode dbg)
          (media_owner dbg) (media_owner dbg)) (-8)
    else skip)

/-- Lines 420-509, the block of `if (version == 0)`. -/
def upgrade_media {σ : Type} (sys : Sys σ) (g : Globals) (dbg : Bool) : Section σ :=
  let media_tmp_dir := g.android_data_dir ++ "media.tmp"
  let owner_media_dir := g.android_media_dir ++ "0"
  seq (alogd "Upgrading /data/media for multi-user") <|
  seq (must sys (.fs_prepare_dir g.android_media_dir (media_mode dbg) (media_owner dbg)
    (media_owner dbg)) (-5)) <|
  seq (test sys (.access media_tmp_dir F_OK) skip
    (must_log sys (.rename g.android_media_dir media_tmp_dir)
      "Failed to move legacy media path" (-1))) <|
  seq (must sys (.fs_prepare_dir g.android_media_dir (media_mode dbg) (media_owner dbg)
    (media_owner dbg)) (if dbg then -12 else -6)) <|
  seq (must sys (.selinux_android_restorecon g.android_media_dir 0) (-7)) <|
  seq (test sys (.access media_tmp_dir F_OK)
    (must_log sys (.rename media_tmp_dir owner_media_dir)
      "Failed to move owner media path" (-13))
    skip) <|
  ensure_user_media_dirs sys g dbg

/-- Lines 515-534, the block of `if (version == 1)`. -/
def upgrade_obb {σ : Type} (sys : Sys σ) (g : Globals) : Section σ :=
  let media_obb_dir := g.android_media_dir ++ "obb"
  let owner_obb_path := g.android_media_dir ++ "0/Android/obb"
  seq (alogd "Upgrading to shared /data/media/obb") <|
  test sys (.access media_obb_dir F_OK) skip
    (test sys (.access owner_obb_path F_OK)
      (must_log sys (.rename owner_obb_path media_obb_dir)
        "Failed to move OBB from owner" (-14))
      skip)

/-- Lines 536-554, run whatever the version. -/
def ensure_primary_user {σ : Type} (sys : Sys σ) (g : Globals) (dbg : Bool) : Section σ :=
  let media_obb_dir := g.android_media_dir ++ "obb"
  seq (must_log sys (.ensure_media_user_dirs 0) "Failed to setup media for user 0" (-15)) <|
  seq (must sys (.fs_prepare_dir media_obb_dir (media_mode dbg) (media_owner dbg)
    (media_owner dbg)) (-9)) <|
  must_log sys (.ensure_config_user_dirs 0) "Failed to setup misc for user 0" (-16)

/-- Lines 572-611, the body of the loop over the users. -/
def upgrade_misc_user_entry {σ : Type} (sys : Sys σ) (g : Globals) (dbg : Bool)
    (dirent : Dirent) : Section σ :=
  let misc_dir := g.android_data_dir ++ "misc"
  let keychain_added_dir := misc_dir ++ "/keychain/cacerts-added"
  let keychain_removed_dir := misc_dir ++ "/keychain/cacerts-removed"
  let name := dirent.d_name
  if is_dot_or_dotdot name then skip
  else
    let user_id := (sys.atoi name % 2 ^ 32).toNat
    let misc_added_dir := misc_dir ++ "/user/" ++ name ++ "/cacerts-added"
    let misc_removed_dir := misc_dir ++ "/user/" ++ name ++ "/cacerts-removed"
    let uid := sys.multiuser_get_uid user_id (if dbg then 2000 else AID_SYSTEM)
    let gid := uid
    seq (must sys (.ensure_config_user_dirs user_id) (-10)) <|
    seq (test sys (.access keychain_added_dir F_OK)
      (test sys (.copy_dir_files keychain_added_dir misc_added_dir uid gid) skip
        (aloge "Some files failed to copy"))
      skip) <|
    test sys (.access keychain_removed_dir F_OK)
      (test sys (.copy_dir_files keychain_removed_dir misc_removed_dir uid gid) skip
        (aloge "Some files failed to copy"))
      skip

/-- Lines 556-623, the block of `if (version == 2)`. -/
def upgrade_misc_user {σ : Type} (sys : Sys σ) (g : Globals) (dbg : Bool) : Section σ :=
  let user_data_dir := g.android_data_dir ++ SECONDARY_USER_PREFIX
  let misc_dir := g.android_data_dir ++ "misc"
  let keychain_added_dir := misc_dir ++ "/keychain/cacerts-added"
  let keychain_removed_dir := misc_dir ++ "/keychain/cacerts-removed"
  seq (alogd "Upgrading to /data/misc/user directories") <|
  with_opendir sys user_data_dir fun entries =>
    seq (for_each (upgrade_misc_user_entry sys g dbg) entries) <|
    seq (test sys (.access keychain_added_dir F_OK)
      (test sys (.delete_dir_contents keychain_added_dir 1) skip skip) skip) <|
    test sys (.access keychain_removed_dir F_OK)
      (test sys (.delete_dir_contents keychain_removed_dir 1) skip skip) skip

/-- Lines 625-632: persist the layout version if changed. -/
def persist_version {σ : Type} (sys : Sys σ) (g : Globals) (oldVersion version : Int) :
    Section σ :=
  let version_path := g.android_data_dir ++ ".layout_version"
  if version ≠ oldVersion then
    must_log sys (.fs_write_atomic_int version_path version) "Failed to save version" (-17)
  else skip

/-- Lines 373-377: read the layout version; 0 when it cannot be read. -/
def read_version {σ : Type} (sys : Sys σ) (g : Globals) (r : Run σ) : Int × Run σ :=
  let version_path := g.android_data_dir ++ ".layout_version"
  match sys.fs_read_atomic_int r.st version_path with
  | some v => (v, { r with tr := r.tr ++ [.call (.fs_read_atomic_int version_path) true] })
  | none => (0, { r with tr := r.tr ++ [.call (.fs_read_atomic_int version_path) false] })

/-- The code between reading the version and the label `fail`, for the
version `oldVersion` read at entry. The three `build_string` allocations are
taken to succeed and the paths to fit `PATH_MAX`. -/
def migrate {σ : Type} (sys : Sys σ) (g : Globals) (dbg : Bool) (oldVersion : Int) :
    Section σ :=
  let version := oldVersion
  seq (make_user_data_dir sys g dbg) <|
  seq (make_primary_symlink sys g) <|
  seq (if version = 0 then upgrade_media sys g dbg else skip) <|
  let version := if version = 0 then 1 else version
  seq (if version = 1 then upgrade_obb sys g else skip) <|
  let version := if version = 1 then 2 else version
  seq (ensure_primary_user sys g dbg) <|
  seq (if version = 2 then upgrade_misc_user sys g dbg else skip) <|
  let version := if version = 2 then 3 else version
  persist_version sys g oldVersion version

/-- The function `initialize_directories`, started on the file system `s`:
its return value, and the file system and the log it leaves. -/
def initialize_directories {σ : Type} (sys : Sys σ) (g : Globals) (dbg : Bool) (s : σ) :
    Int × Run σ :=
  match migrate sys g dbg (read_version sys g { st := s, tr := [] }).1
      (read_version sys g { st := s, tr := [] }).2 with
  | .ok r => (0, r)
  | .fail res r => (res, r)

/-- The code of `migrate` before the layout version is persisted. -/
def upgrade {σ : Type} (sys : Sys σ) (g : Globals) (dbg : Bool) (oldVersion : Int) :
    Section σ :=
  let version := oldVersion
  seq (make_user_data_dir sys g dbg) <|
  seq (make_primary_symlink sys g) <|
  seq (if version = 0 then upgrade_media sys g dbg else skip) <|
  let version := if version = 0 then 1 else version
  seq (if version = 1 then upgrade_obb sys g else skip) <|
  let version := if version = 1 then 2 else version
  seq (ensure_primary_user sys g dbg) <|
  (if version = 2 then upgrade_misc_user sys g dbg else skip)

/-- The value of `version` when the layout version is persisted. -/
def final_version (oldVersion : Int) : Int :=
  let version := oldVersion
  let version := if version = 0 then 1 else version
  let version := if version = 1 then 2 else version
  if version = 2 then 3 else version

/-- The version-gated steps that run for the version read at entry. -/
def steps_from (oldVersion : Int) : List Nat :=
  let version := oldVersion
  (if version = 0 then [0] else []) ++
  (let version := if version = 0 then 1 else version
   (if version = 1 then [1] else []) ++
   (let version := if version = 1 then 2 else version
    if version = 2 then [2] else []))

/-- The path of the version marker. -/
def version_path (g : Globals) : String := g.android_data_dir ++ ".layout_version"

/-- The version that `initialize_directories` reads at entry on `s`: 0 when
the marker cannot be read. -/
def version_at_entry {σ : Type} (sys : Sys σ) (g : Globals) (s : σ) : Int :=
  (sys.fs_read_atomic_int s (version_path g)).getD 0

/-! ## What the log shows -/

/-- The version step that a message of `ALOGD` announces. -/
def upgrade_step (msg : String) : Option Nat :=
  if msg = "Upgrading /data/media for multi-user" then some 0
  else if msg = "Upgrading to shared /data/media/obb" then some 1
  else if msg = "Upgrading to /data/misc/user directories" then some 2
  else none

/-- The version step that an event of the log starts. -/
def Ev.step : Ev → Option Nat
  | .alogd msg => upgrade_step msg
  | _ => none

/-- The version-gated steps that a log shows, in order. -/
def steps_of (tr : List Ev) : List Nat := tr.filterMap Ev.step

/-- The event is a write of the version marker. -/
def Ev.is_write : Ev → Bool
  | .call (.fs_write_atomic_int _ _) _ => true
  | _ => false

/-- The calls whose failure the code answers with `goto fail`: directory
creation, chown and chmod, symlink, rename, the preparation of a directory,
the relabelling, and the per-user media and config directories. -/
def Op.is_fatal : Op → Bool
  | .mkdir _ _ => true
  | .chown _ _ _ => true
  | .chmod _ _ => true
  | .symlink _ _ => true
  | .rename _ _ => true
  | .fs_prepare_dir _ _ _ _ => true
  | .selinux_android_restorecon _ _ => true
  | .ensure_media_user_dirs _ => true
  | .ensure_config_user_dirs _ => true
  | _ => false

/-- The event is a failure of one of those calls. -/
def Ev.fatal_failure : Ev → Bool
  | .call op false => op.is_fatal
  | _ => false

/-- What a stretch of code adds to the log: when it falls through, exactly
the steps `S`, no failure of a fatal call and no write of the marker; when it
jumps to `fail`, a negative `res`, a prefix of the steps `S` and no write of
the marker. -/
def Spec {σ : Type} (S : List Nat) (f : Section σ) : Prop :=
  ∀ r, match f r with
    | .ok r1 => ∃ new, r1.tr = r.tr ++ new ∧ steps_of new = S ∧
        ∀ e ∈ new, e.fatal_failure = false ∧ e.is_write = false
    | .fail res r1 => res < 0 ∧ ∃ new, r1.tr = r.tr ++ new ∧ steps_of new <+: S ∧
        ∀ e ∈ new, e.is_write = false

/-! ## Sample systems -/

/-- The globals for the data root `/data/`. -/
def globals_data : Globals :=
  { android_data_dir := "/data/", android_media_dir := "/data/media/" }

/-- A system without state: the calls chosen by `fails` fail and all others
succeed, the version marker reads `ver`, and `opendir` gives `entries`. -/
def sys_script (fails : Op → Bool) (ver : Option Int) (entries : Option (List Dirent)) :
    Sys Unit where
  exec := fun _ op => (!fails op, ())
  fs_read_atomic_int := fun _ _ => ver
  opendir := fun _ _ => entries
  atoi := fun _ => 0
  multiuser_get_uid := fun userid appid => (userid * 100000 + appid % 100000) % 2 ^ 32

/-- The calls that copy or clear the legacy certificate directories. -/
def is_copy_or_clear : Op → Bool
  | .copy_dir_files _ _ _ _ => true
  | .delete_dir_contents _ _ => true
  | _ => false

/-- The calls `mkdir` and `access`. -/
def is_mkdir_or_access : Op → Bool
  | .mkdir _ _ => true
  | .access _ _ => true
  | _ => false

/-! ## A file system

A model of the calls on a tree of directories, files and symbolic links, as
they behave for a process that runs as root (so no call fails for lack of
permission). Paths are absolute; `.` and `..` inside a path are not
interpreted. -/

/-- A node of the tree: a directory with its mode and owner, a file with its
owner and the integer it holds (if it holds one), or a symbolic link. -/
inductive Node where
  | dir (mode uid gid : Nat)
  | file (uid gid : Nat) (value : Option Int)
  | link (target : String)
deriving DecidableEq

/-- A path as the list of its components. -/
abbrev Path := List String

/-- The tree: the nodes below the root, by path. The root is a directory. -/
structure Fs where
  nodes : List (Path × Node)
deriving DecidableEq

/-- The components of a path: the pieces between slashes. -/
def components_aux : List Char → String → List String
  | [], cur => if cur = "" then [] else [cur]
  | c :: cs, cur =>
    if c = '/' then (if cur = "" then components_aux cs "" else cur :: components_aux cs "")
    else components_aux cs (cur.push c)

def components (path : String) : Path := components_aux path.data ""

/-- The node at a path, symbolic links not followed. -/
def Fs.lstat (fs : Fs) (p : Path) : Option Node :=
  if p = [] then some (.dir 0o755 0 0)
  else (fs.nodes.find? (fun e => decide (e.1 = p))).map (fun e => e.2)

/-- Walk the components `rest` from the directory `pre`, following symbolic
links (the last one only when `follow`); the path reached, if every
component exists. `fuel` bounds the number of components walked. -/
def Fs.walk (fs : Fs) : Nat → Path → Path → Bool → Option Path
  | 0, _, _, _ => none
  | _ + 1, pre, [], _ => some pre
  | fuel + 1, pre, c :: rest, follow =>
    match fs.lstat pre with
    | some (.dir _ _ _) =>
      match fs.lstat (pre ++ [c]) with
      | some (.link target) =>
        if rest = [] ∧ follow = false then some (pre ++ [c])
        else fs.walk fuel [] (components target ++ rest) follow
      | some _ => fs.walk fuel (pre ++ [c]) rest follow
      | none => none
    | _ => none

/-- The place a path names, links followed. -/
def Fs.resolve (fs : Fs) (path : String) : Option Path := fs.walk 64 [] (components path) true

/-- The node a path names, links followed. -/
def Fs.stat (fs : Fs) (path : String) : Option Node := (fs.resolve path).bind fs.lstat

/-- The directory in which a path names an entry, and the name of the
entry. -/
def Fs.parent_and_name (fs : Fs) (path : String) : Option (Path × String) :=
  match (components path).getLast? with
  | none => none
  | some name =>
    match fs.walk 64 [] (components path).dropLast true with
    | some par =>
      match fs.lstat par with
      | some (.dir _ _ _) => some (par, name)
      | _ => none
    | none => none

/-- Set the node at `p`. -/
def Fs.put (fs : Fs) (p : Path) (n : Node) : Fs :=
  if (fs.nodes.find? (fun e => decide (e.1 = p))).isSome then
    { nodes := fs.nodes.map (fun e => if e.1 = p then (p, n) else e) }
  else { nodes := fs.nodes ++ [(p, n)] }

/-- The nodes strictly below `p`. -/
def Fs.below (fs : Fs) (p : Path) : List (Path × Node) :=
  fs.nodes.filter (fun e => p.isPrefixOf e.1 && decide (e.1 ≠ p))

/-- The entries of the directory `p`. -/
def Fs.children (fs : Fs) (p : Path) : List (String × Node) :=
  fs.nodes.filterMap (fun e =>
    if e.1.dropLast = p then (e.1.getLast?).map (fun name => (name, e.2)) else none)

/-- Remove the nodes strictly below `p`. -/
def Fs.clear (fs : Fs) (p : Path) : Fs :=
  { nodes := fs.nodes.filter (fun e => !(p.isPrefixOf e.1 && decide (e.1 ≠ p))) }

/-- Remove the node at `p` and what is below it. -/
def Fs.remove (fs : Fs) (p : Path) : Fs :=
  { nodes := fs.nodes.filter (fun e => !p.isPrefixOf e.1) }

/-- Move the node at `src` and what is below it to `dst`. -/
def Fs.move (fs : Fs) (src dst : Path) : Fs :=
  { nodes := fs.nodes.map (fun e =>
      if src.isPrefixOf e.1 then (dst ++ e.1.drop src.length, e.2) else e) }

def fs_access (fs : Fs) (path : String) : Bool × Fs := ((fs.resolve path).isSome, fs)

def fs_mkdir (fs : Fs) (path : String) (mode : Nat) : Bool × Fs :=
  match fs.parent_and_name path with
  | some (par, name) =>
    match fs.lstat (par ++ [name]) with
    | none => (true, fs.put (par ++ [name]) (.dir mode 0 0))
    | some _ => (false, fs)
  | none => (false, fs)

def fs_chown (fs : Fs) (path : String) (uid gid : Nat) : Bool × Fs :=
  match fs.resolve path with
  | some p =>
    match fs.lstat p with
    | some (.dir mode _ _) => (true, fs.put p (.dir mode uid gid))
    | some (.file _ _ value) => (true, fs.put p (.file uid gid value))
    | _ => (false, fs)
  | none => (false, fs)

def fs_chmod (fs : Fs) (path : String) (mode : Nat) : Bool × Fs :=
  match fs.resolve path with
  | some p =>
    match fs.lstat p with
    | some (.dir _ uid gid) => (true, fs.put p (.dir mode uid gid))
    | some (.file _ _ _) => (true, fs)
    | _ => (false, fs)
  | none => (false, fs)

/-- The call `symlink`: it fails when `linkpath` names an entry that exists,
be it a link whose target is missing. -/
def fs_symlink (fs : Fs) (target linkpath : String) : Bool × Fs :=
  match fs.parent_and_name linkpath with
  | some (par, name) =>
    match fs.lstat (par ++ [name]) with
    | none => (true, fs.put (par ++ [name]) (.link target))
    | some _ => (false, fs)
  | none => (false, fs)

/-- The call `rename`: the entry `oldpath` with all below it becomes
`newpath`; an empty directory at `newpath` is replaced by a directory, a file
or link by a file or link. -/
def fs_rename (fs : Fs) (oldpath newpath : String) : Bool × Fs :=
  match fs.parent_and_name oldpath, fs.parent_and_name newpath with
  | some (po, no), some (pn, nn) =>
    let src := po ++ [no]
    let dst := pn ++ [nn]
    match fs.lstat src with
    | none => (false, fs)
    | some node =>
      if src = dst then (true, fs)
      else if src.isPrefixOf dst then (false, fs)
      else
        match fs.lstat dst, node with
        | none, _ => (true, fs.move src dst)
        | some (.dir _ _ _), .dir _ _ _ =>
          if fs.below dst = [] then (true, (fs.remove dst).move src dst) else (false, fs)
        | some (.dir _ _ _), _ => (false, fs)
        | some _, .dir _ _ _ => (false, fs)
        | some _, _ => (true, (fs.remove dst).move src dst)
  | _, _ => (false, fs)

/-- Modelled from the spec: `fs_prepare_dir` of libcutils, which is not in
the source file: "ensure directory with exact mode/owner", creating it when
absent; it fails when the path names something that is not a directory or
when the directory above is missing. -/
def fs_prepare_dir (fs : Fs) (path : String) (mode uid gid : Nat) : Bool × Fs :=
  match fs.parent_and_name path with
  | some (par, name) =>
    match fs.lstat (par ++ [name]) with
    | none => (true, fs.put (par ++ [name]) (.dir mode uid gid))
    | some (.dir _ _ _) => (true, fs.put (par ++ [name]) (.dir mode uid gid))
    | some _ => (false, fs)
  | none => (false, fs)

def DT_REG : Nat := 8
def DT_LNK : Nat := 10

def Node.d_type : Node → Nat
  | .dir _ _ _ => DT_DIR
  | .file _ _ _ => DT_REG
  | .link _ => DT_LNK

/-- The calls `opendir` and `readdir`: `.`, `..` and the entries. -/
def fs_opendir (fs : Fs) (path : String) : Option (List Dirent) :=
  match fs.resolve path with
  | some p =>
    match fs.lstat p with
    | some (.dir _ _ _) =>
      some (⟨".", DT_DIR⟩ :: ⟨"..", DT_DIR⟩ ::
        (fs.children p).map (fun e => ⟨e.1, e.2.d_type⟩))
    | _ => none
  | none => none

/-- Modelled from the spec: `copy_dir_files` of utils.c, which is not in
the source file: the files of the source directory are copied into the
destination directory (made when absent) "with ownership rewritten". -/
def fs_copy_dir_files (fs : Fs) (srcname dstname : String) (owner group : Nat) : Bool × Fs :=
  match fs.resolve srcname with
  | some sp =>
    match fs.lstat sp with
    | some (.dir _ _ _) =>
      let fs1 := (fs_mkdir fs dstname 0o600).2
      match fs1.resolve dstname with
      | some dp =>
        match fs1.lstat dp with
        | some (.dir _ _ _) =>
          (true, (fs1.children sp).foldl (fun acc e =>
            match e.2 with
            | .file _ _ value => acc.put (dp ++ [e.1]) (.file owner group value)
            | _ => acc) fs1)
        | _ => (false, fs1)
      | none => (false, fs1)
    | _ => (false, fs)
  | none => (false, fs)

/-- Modelled from the spec: `delete_dir_contents` of utils.c, which is not
in the source file: it deletes the "contents (not the directories
themselves)", so the flag `also_delete_dir` is not acted on. -/
def fs_delete_dir_contents (fs : Fs) (pathname : String) (_also_delete_dir : Nat) : Bool × Fs :=
  match fs.resolve pathname with
  | some p =>
    match fs.lstat p with
    | some (.dir _ _ _) => (true, fs.clear p)
    | _ => (false, fs)
  | none => (false, fs)

/-- The call `fs_read_atomic_int` of libcutils: the integer in the file. -/
def fs_read_atomic_int (fs : Fs) (path : String) : Option Int :=
  match fs.stat path with
  | some (.file _ _ (some v)) => some v
  | _ => none

/-- The call `fs_write_atomic_int` of libcutils: the file holds the
integer afterwards. -/
def fs_write_atomic_int (fs : Fs) (path : String) (value : Int) : Bool × Fs :=
  match fs.parent_and_name path with
  | some (par, name) =>
    match fs.lstat (par ++ [name]) with
    | some (.dir _ _ _) => (false, fs)
    | _ => (true, fs.put (par ++ [name]) (.file 0 0 (some value)))
  | none => (false, fs)

/-- The value of a string of decimal digits, up to the first other
character. -/
def digits_value : List Char → Nat → Nat
  | [], acc => acc
  | c :: cs, acc => if c.isDigit then digits_value cs (acc * 10 + (c.toNat - 48)) else acc

/-- The function `atoi` on a directory name: leading white space, an
optional sign and digits (for values that fit an `int`). -/
def atoi_name (name : String) : Int :=
  match name.data.dropWhile (fun c => isspace c.toNat) with
  | '-' :: cs => -(digits_value cs 0 : Nat)
  | '+' :: cs => (digits_value cs 0 : Nat)
  | cs => (digits_value cs 0 : Nat)

/-- The function `multiuser_get_uid` of libcutils; `uid_t` has 32 bits. -/
def multiuser_get_uid (userid appid : Nat) : Nat :=
  (userid * 100000 + appid % 100000) % 2 ^ 32

def AID_EVERYBODY : Nat := 9997

/-- Modelled from the spec: `ensure_media_user_dirs` of utils.c, which is
not in the source file: "ensure per-user media directory" exists, with the
owner and mode of the media root. -/
def fs_ensure_media_user_dirs (g : Globals) (fs : Fs) (userid : Nat) : Bool × Fs :=
  fs_prepare_dir fs (g.android_media_dir ++ toString userid) 0o770 AID_MEDIA_RW AID_MEDIA_RW

/-- Modelled from the spec: `ensure_config_user_dirs` of utils.c, which is
not in the source file: "ensure ... per-user config/misc directory"
`misc/user/<userid>` exists, owned by the user. -/
def fs_ensure_config_user_dirs (g : Globals) (fs : Fs) (userid : Nat) : Bool × Fs :=
  fs_prepare_dir fs (g.android_data_dir ++ "misc/user/" ++ toString userid) 0o750
    (multiuser_get_uid userid AID_SYSTEM) (multiuser_get_uid userid AID_EVERYBODY)

/-- The calls of `initialize_directories` on the tree. -/
def fs_exec (g : Globals) (fs : Fs) : Op → Bool × Fs
  | .access path _ => fs_access fs path
  | .mkdir path mode => fs_mkdir fs path mode
  | .chown path uid gid => fs_chown fs path uid gid
  | .chmod path mode => fs_chmod fs path mode
  | .symlink target linkpath => fs_symlink fs target linkpath
  | .rename oldpath newpath => fs_rename fs oldpath newpath
  | .fs_prepare_dir path mode uid gid => fs_prepare_dir fs path mode uid gid
  | .selinux_android_restorecon path _ => fs_access fs path
  | .opendir path => ((fs_opendir fs path).isSome, fs)
  | .ensure_media_user_dirs userid => fs_ensure_media_user_dirs g fs userid
  | .ensure_config_user_dirs userid => fs_ensure_config_user_dirs g fs userid
  | .copy_dir_files srcname dstname owner group => fs_copy_dir_files fs srcname dstname owner group
  | .delete_dir_contents pathname flag => fs_delete_dir_contents fs pathname flag
  | .fs_read_atomic_int path => ((fs_read_atomic_int fs path).isSome, fs)
  | .fs_write_atomic_int path value => fs_write_atomic_int fs path value

/-- The file system as the system under `initialize_directories`. -/
def sys_fs (g : Globals) : Sys Fs where
  exec := fs_exec g
  fs_read_atomic_int := fs_read_atomic_int
  opendir := fs_opendir
  atoi := atoi_name
  multiuser_get_uid := multiuser_get_uid

/-- A fresh data root: `/data` and `/data/misc/user` exist; there is no
version marker, no legacy directory `/data/data`, no `/data/user` and no
`/data/media`. -/
def fs_fresh : Fs :=
  { nodes := [(["data"], .dir 0o771 1000 1000),
              (["data", "misc"], .dir 0o771 1000 9998),
              (["data", "misc", "user"], .dir 0o771 0 0)] }

/-- A data root of layout version 0 with the legacy directory `/data/data`
and one directory `Music` in the media root. -/
def fs_legacy : Fs :=
  { nodes := [(["data"], .dir 0o771 1000 1000),
              (["data", "data"], .dir 0o771 1000 1000),
              (["data", "misc"], .dir 0o771 1000 9998),
              (["data", "misc", "user"], .dir 0o771 0 0),
              (["data", "media"], .dir 0o770 1023 1023),
              (["data", "media", "Music"], .dir 0o775 1023 1023)] }

/-- The tree after the steps of `initialize_directories` up to the end of
the block of version 0, run on `fs`: the file system changes of the step from
version 0 to 1 are done and the version marker is as it was. -/
def after_step0 (g : Globals) (dbg : Bool) (fs : Fs) : Result Fs :=
  seq (make_user_data_dir (sys_fs g) g dbg)
    (seq (make_primary_symlink (sys_fs g) g) (upgrade_media (sys_fs g) g dbg))
    { st := fs, tr := [] }

/-- The file system at the end of a stretch of code. -/
def Result.st {σ : Type} : Result σ → σ
  | .ok r => r.st
  | .fail _ r => r.st

/-! ## `drop_privileges` -/

def CAP_CHOWN : Nat := 0
def CAP_DAC_OVERRIDE : Nat := 1
def CAP_FOWNER : Nat := 3
def CAP_SETGID : Nat := 6
def CAP_SETUID : Nat := 7
/-- The macro of `linux/capability.h`: the 32-bit word that holds a
capability. -/
def CAP_TO_INDEX (x : Nat) : Nat := x >>> 5
/-- The macro of `linux/capability.h`: the bit of a capability in its word. -/
def CAP_TO_MASK (x : Nat) : Nat := 1 <<< (x &&& 31)
def PR_SET_KEEPCAPS : Nat := 8
def AID_INSTALL : Nat := 1012
def _LINUX_CAPABILITY_VERSION_3 : Nat := 0x20080522

/-- The structure `__user_cap_header_struct`. -/
structure cap_header where
  version : Nat
  pid : Nat
deriving DecidableEq

/-- The structure `__user_cap_data_struct`: three 32-bit words. -/
structure cap_data where
  effective : Nat
  permitted : Nat
  inheritable : Nat
deriving DecidableEq

/-- The system calls of `drop_privileges`, with their arguments. -/
inductive PrivCall where
  | prctl (option arg2 : Nat)
  | setgid (gid : Nat)
  | setuid (uid : Nat)
  | capset (hdr : cap_header) (data : List cap_data)
deriving DecidableEq

/-- The statement `capdata[i].permitted |= mask`. -/
def or_permitted : List cap_data → Nat → Nat → List cap_data
  | [], _, _ => []
  | d :: ds, 0, mask => { d with permitted := (d.permitted ||| mask) % 2 ^ 32 } :: ds
  | d :: ds, i + 1, mask => d :: or_permitted ds i mask

/-- The statement `capdata[i].effective = capdata[i].permitted`. -/
def set_effective : List cap_data → Nat → List cap_data
  | [], _ => []
  | d :: ds, 0 => { d with effective := d.permitted } :: ds
  | d :: ds, i + 1 => d :: set_effective ds i

/-- The statement `capdata[i].inheritable = 0`. -/
def clear_inheritable : List cap_data → Nat → List cap_data
  | [], _ => []
  | d :: ds, 0 => { d with inheritable := 0 } :: ds
  | d :: ds, i + 1 => d :: clear_inheritable ds i

/-- Lines 661-677: the header and the two words of capability data that
`drop_privileges` builds after the `memset`. -/
def capheader : cap_header := { version := _LINUX_CAPABILITY_VERSION_3, pid := 0 }

def capdata : List cap_data :=
  let capdata : List cap_data := [⟨0, 0, 0⟩, ⟨0, 0, 0⟩]
  let capdata := or_permitted capdata (CAP_TO_INDEX CAP_DAC_OVERRIDE) (CAP_TO_MASK CAP_DAC_OVERRIDE)
  let capdata := or_permitted capdata (CAP_TO_INDEX CAP_CHOWN) (CAP_TO_MASK CAP_CHOWN)
  let capdata := or_permitted capdata (CAP_TO_INDEX CAP_SETUID) (CAP_TO_MASK CAP_SETUID)
  let capdata := or_permitted capdata (CAP_TO_INDEX CAP_SETGID) (CAP_TO_MASK CAP_SETGID)
  let capdata := or_permitted capdata (CAP_TO_INDEX CAP_FOWNER) (CAP_TO_MASK CAP_FOWNER)
  let capdata := set_effective capdata 0
  let capdata := set_effective capdata 1
  let capdata := clear_inheritable capdata 0
  clear_inheritable capdata 1

/-- What `drop_privileges` leaves: the system calls it made, each with its
success, and whether it called `exit(1)`. -/
structure PrivOut where
  calls : List (PrivCall × Bool)
  exited : Bool
deriving DecidableEq

/-- The function `drop_privileges`; `env` says which system calls succeed
and `dbg` that `MY_DEBUG_ROOT` is defined (the body is then empty). -/
def drop_privileges (dbg : Bool) (env : PrivCall → Bool) : PrivOut :=
  if dbg then { calls := [], exited := false }
  else if env (.prctl PR_SET_KEEPCAPS 1) = false then
    { calls := [(.prctl PR_SET_KEEPCAPS 1, false)], exited := true }
  else if env (.setgid AID_INSTALL) = false then
    { calls := [(.prctl PR_SET_KEEPCAPS 1, true), (.setgid AID_INSTALL, false)], exited := true }
  else if env (.setuid AID_INSTALL) = false then
    { calls := [(.prctl PR_SET_KEEPCAPS 1, true), (.setgid AID_INSTALL, true),
        (.setuid AID_INSTALL, false)], exited := true }
  else if env (.capset capheader capdata) = false then
    { calls := [(.prctl PR_SET_KEEPCAPS 1, true), (.setgid AID_INSTALL, true),
        (.setuid AID_INSTALL, true), (.capset capheader capdata, false)], exited := true }
  else
    { calls := [(.prctl PR_SET_KEEPCAPS 1, true), (.setgid AID_INSTALL, true),
        (.setuid AID_INSTALL, true), (.capset capheader capdata, true)], exited := false }

/-! ## The positions the tokenizer examines -/

/-- The offsets at which the tokenizer loop evaluates `*cmd`, in order: the
loop of `tokenize_loop` with each read recorded. -/
def tokenize_loop_reads : Nat → TokState → List Nat
  | 0, _ => []
  | fuel + 1, st =>
    st.p ::
      match st.cmd[st.p]? with
      | none => []
      | some c =>
        if c = 0 then []
        else if isspace c then
          let st1 : TokState :=
            { cmd := st.cmd.set st.p 0, p := st.p + 1, n := st.n + 1,
              arg := st.arg ++ [st.p + 1] }
          if st1.n = TOKEN_MAX then []
          else tokenize_loop_reads fuel { st1 with p := st1.p + 1 }
        else tokenize_loop_reads fuel { st with p := st.p + 1 }

/-- The offsets the tokenizer examines on the buffer `cmd`. -/
def tokenize_reads (cmd : Bytes) : List Nat :=
  tokenize_loop_reads (cmd.length + 1) { cmd := cmd, p := 0, n := 0, arg := [0] }

/-! ## Counting tokens -/

/-- The number of tokens that start in `w`, a token being a maximal run of
bytes that are not whitespace; `inTok` says that the byte before `w` belongs
to a token. -/
def count_tokens_aux : Bool → Bytes → Nat
  | _, [] => 0
  | inTok, c :: cs =>
    if isspace c then count_tokens_aux false cs
    else (if inTok then 0 else 1) + count_tokens_aux true cs

/-- The number of whitespace-separated tokens of a payload. -/
def count_tokens (w : Bytes) : Nat := count_tokens_aux false w

/-! ## Sample collaborators -/

/-- Collaborators that all succeed; `get_size` reports the four sizes 1, 2,
3 and 4. -/
def ext_zero : Ext where
  atoi := fun _ => 0
  atoll := fun _ => 0
  install := fun _ _ _ _ => 0
  dexopt := fun _ _ _ _ _ _ _ => 0
  mark_boot_complete := fun _ => 0
  move_dex := fun _ _ _ => 0
  rm_dex := fun _ _ => 0
  uninstall := fun _ _ => 0
  renamepkg := fun _ _ => 0
  fix_uid := fun _ _ _ => 0
  free_cache := fun _ => 0
  delete_cache := fun _ _ => 0
  delete_code_cache := fun _ _ => 0
  get_size := fun _ _ _ _ _ _ _ => (0, 1, 2, 3, 4)
  delete_user_data := fun _ _ => 0
  make_user_data := fun _ _ _ _ => 0
  make_user_config := fun _ => 0
  delete_user := fun _ => 0
  movefiles := 0
  linklib := fun _ _ _ => 0
  idmap := fun _ _ _ => 0
  restorecon_data := fun _ _ _ => 0

/-- The collaborators return values of their C types: every handler
returns an `int` of 32 bits and `get_size` leaves `int64_t` sizes. -/
def Ext.in_range (ext : Ext) : Prop :=
  (∀ (h : Handler) (arg : List Bytes),
    -2 ^ 31 ≤ (h.call ext arg).1 ∧ (h.call ext arg).1 < 2 ^ 31) ∧
  (∀ a b c d e f g,
    (-2 ^ 63 ≤ (ext.get_size a b c d e f g).2.1 ∧ (ext.get_size a b c d e f g).2.1 < 2 ^ 63) ∧
    (-2 ^ 63 ≤ (ext.get_size a b c d e f g).2.2.1 ∧
      (ext.get_size a b c d e f g).2.2.1 < 2 ^ 63) ∧
    (-2 ^ 63 ≤ (ext.get_size a b c d e f g).2.2.2.1 ∧
      (ext.get_size a b c d e f g).2.2.2.1 < 2 ^ 63) ∧
    (-2 ^ 63 ≤ (ext.get_size a b c d e f g).2.2.2.2 ∧
      (ext.get_size a b c d e f g).2.2.2.2 < 2 ^ 63))

/-! ## Sample requests -/

/-- A request of 1022 bytes: `ping`, a blank and 1017 letters `z`. -/
def ping_long_payload : Bytes := str "ping" ++ 32 :: 122 :: List.replicate 1016 122

/-- A request of 1023 bytes: `rmuser`, a blank and 1016 digits `5`. -/
def rmuser_long_payload : Bytes := str "rmuser" ++ 32 :: 53 :: List.replicate 1015 53

/-! # Theorems -/

/-! ## Lemmas on the reply -/

theorem write_at_length (buf : Bytes) (off : Nat) (data : Bytes)
    (h : off + data.length ≤ buf.length) : (write_at buf off data).length = buf.length := by
  simp [write_at]; omega

theorem write_at_drop_take (buf : Bytes) (off : Nat) (data : Bytes) (k : Nat)
    (h : off ≤ buf.length) (hk : k ≤ data.length) :
    ((write_at buf off data).drop off).take k = data.take k := by
  have h1 : (buf.take off).length = off := by simp; omega
  unfold write_at
  rw [List.append_assoc, List.drop_left' h1, List.take_append_of_le_length hk]

theorem le16_length (n : Nat) : (le16 n).length = 2 := rfl

theorem fmt_nat_length (n e : Nat) (he : 0 < e) (h : n < 10 ^ e) : (fmt_nat n).length ≤ e := by
  have := Nat.repr_length n e he h
  simpa [fmt_nat, Nat.repr] using this

/-- A 32-bit `int` prints in at most 11 bytes. -/
theorem fmt_d_length_int32 (r : Int) (h1 : -2 ^ 31 ≤ r) (h2 : r < 2 ^ 31) :
    (fmt_d r).length ≤ 11 := by
  unfold fmt_d
  split
  · have := fmt_nat_length (-r).toNat 10 (by decide) (by omega)
    simp; omega
  · have := fmt_nat_length r.toNat 10 (by decide) (by omega)
    omega

/-- A 64-bit integer prints in at most 20 bytes. -/
theorem fmt_d_length_int64 (r : Int) (h1 : -2 ^ 63 ≤ r) (h2 : r < 2 ^ 63) :
    (fmt_d r).length ≤ 20 := by
  unfold fmt_d
  split
  · have := fmt_nat_length (-r).toNat 19 (by decide) (by omega)
    simp; omega
  · have := fmt_nat_length r.toNat 19 (by decide) (by omega)
    omega

theorem toDigitsCore_length_ge (f : Nat) :
    ∀ (n : Nat) (ds : List Char), ds.length ≤ (Nat.toDigitsCore 10 f n ds).length := by
  induction f with
  | zero => intro n ds; simp [Nat.toDigitsCore]
  | succ f ih =>
    intro n ds
    simp only [Nat.toDigitsCore]
    split
    · simp
    · exact Nat.le_trans (by simp) (ih _ _)

/-- The conversion `%d` prints at least one byte. -/
theorem fmt_d_ne_nil (r : Int) : fmt_d r ≠ [] := by
  have hn : ∀ n : Nat, fmt_nat n ≠ [] := by
    intro n h
    have h1 : (Nat.toDigits 10 n).length = 0 := by
      have := congrArg List.length h
      simpa [fmt_nat] using this
    simp only [Nat.toDigits, Nat.toDigitsCore] at h1
    split at h1
    · simp at h1
    · have := toDigitsCore_length_ge n (n / 10) [Nat.digitChar (n % 10)]
      simp at this
      omega
  unfold fmt_d
  split
  · simp
  · exact hn _

theorem reply_text_ne_nil (ret : Int) (reply : Bytes) : reply_text ret reply ≠ [] := by
  unfold reply_text
  split
  · simp [fmt_d_ne_nil]
  · exact fmt_d_ne_nil ret

theorem reply_text_length_le (r : Int) (t : Bytes) :
    (reply_text r t).length ≤ (fmt_d r).length + 1 + t.length := by
  unfold reply_text
  split
  · simp; omega
  · omega

/-- No handler leaves more than `REPLY_MAX - 1` bytes of text. -/
theorem handler_reply_length (h : Handler) (ext : Ext) (arg : List Bytes) :
    (h.call ext arg).2.length ≤ REPLY_MAX - 1 := by
  cases h <;> simp [Handler.call, do_ping, do_install, do_dexopt, do_mark_boot_complete,
    do_move_dex, do_rm_dex, do_remove, do_rename, do_fixuid, do_free_cache, do_rm_cache,
    do_rm_code_cache, do_get_size, do_rm_user_data, do_movefiles, do_linklib, do_mk_user_data,
    do_mk_user_config, do_rm_user, do_idmap, do_restorecon_data, do_patchoat, snprintf_stored]

/-! ## The block `done` -/

/-- The block `done` when the reply and its NUL fit between the `cmd`
pointer and the end of the buffer: the count (two bytes, low byte first) and
the text are written as far as the peer takes them, and `execute` returns 0
when all of it was taken and -1 otherwise. -/
theorem execute_done_fits (s : Sock) (st : TokState) (ret : Int) (reply : Bytes)
    (called : Option (Handler × List Bytes))
    (hlen : (reply_text ret reply).length < BUFFER_MAX)
    (hfit : st.p + (reply_text ret reply).length + 1 ≤ st.cmd.length) :
    ∃ out, execute_done s st ret reply called = some out ∧
      out.ret = (if (reply_text ret reply).length + 2 ≤ s.wcap then 0 else -1) ∧
      out.called = called ∧ out.s.input = s.input ∧
      out.s.output = s.output ++
        ((reply_text ret reply).length % 256 :: (reply_text ret reply).length / 256 % 256 ::
          reply_text ret reply).take s.wcap ∧
      out.s.wcap = s.wcap - ((reply_text ret reply).length + 2) := by
  have hB : BUFFER_MAX = 1024 := rfl
  rw [hB] at hlen
  have hst : snprintf_stored BUFFER_MAX (reply_text ret reply) = reply_text ret reply := by
    simp only [snprintf_stored, hB]
    exact List.take_of_length_le (by omega)
  have hmod : (reply_text ret reply).length % 65536 = (reply_text ret reply).length :=
    Nat.mod_eq_of_lt (by omega)
  have hrd : ((write_at st.cmd st.p (reply_text ret reply ++ [0])).drop st.p).take
      (reply_text ret reply).length = reply_text ret reply := by
    rw [write_at_drop_take _ _ _ _ (by omega) (by simp)]
    simp
  have hwl : (write_at st.cmd st.p (reply_text ret reply ++ [0])).length = st.cmd.length :=
    write_at_length _ _ _ (by simp; omega)
  have hframe : ∀ k, ((reply_text ret reply).length % 256 ::
      (reply_text ret reply).length / 256 % 256 :: reply_text ret reply).take k =
      (le16 (reply_text ret reply).length).take k ++ (reply_text ret reply).take (k - 2) := by
    intro k
    have : ((reply_text ret reply).length % 256 ::
        (reply_text ret reply).length / 256 % 256 :: reply_text ret reply) =
        le16 (reply_text ret reply).length ++ reply_text ret reply := rfl
    rw [this, List.take_append_eq_append_take, le16_length]
  unfold execute_done
  simp only [hst, List.length_append, List.length_singleton]
  rw [if_pos (by omega), if_neg (by rw [hB]; omega), hmod]
  by_cases h2 : 2 ≤ s.wcap
  · have hw1 : writex s (le16 (reply_text ret reply).length) =
        (0, { s with output := s.output ++ le16 (reply_text ret reply).length,
                     wcap := s.wcap - 2 }) := by
      unfold writex
      rw [if_pos (by rw [le16_length]; omega), le16_length]
    have ht16 : (le16 (reply_text ret reply).length).take s.wcap =
        le16 (reply_text ret reply).length :=
      List.take_of_length_le (by rw [le16_length]; exact h2)
    rw [hw1]
    simp only [hwl]
    rw [if_pos (by omega), hrd]
    unfold writex
    simp only
    by_cases h3 : (reply_text ret reply).length ≤ s.wcap - 2
    · rw [if_pos h3]
      refine ⟨_, rfl, ?_, rfl, rfl, ?_, ?_⟩
      · simp only; rw [if_pos (by omega)]
      · simp only
        rw [hframe, ht16, List.take_of_length_le h3, List.append_assoc]
      · simp only; omega
    · rw [if_neg h3]
      refine ⟨_, rfl, ?_, rfl, rfl, ?_, ?_⟩
      · simp only; rw [if_neg (by omega)]
      · simp only
        rw [hframe, ht16, List.append_assoc]
      · simp only; omega
  · have hw1 : writex s (le16 (reply_text ret reply).length) =
        (-1, { s with output := s.output ++ (le16 (reply_text ret reply).length).take s.wcap,
                      wcap := 0 }) := by
      unfold writex
      rw [if_neg (by rw [le16_length]; omega)]
    rw [hw1]
    refine ⟨_, rfl, ?_, rfl, rfl, ?_, ?_⟩
    · simp only; rw [if_neg (by omega)]
    · simp only
      rw [hframe, show s.wcap - 2 = 0 by omega]
      simp
    · simp only; omega

/-- The reply of `done` for a text shorter than 256 bytes that fits the
buffer: the count is one byte and a zero byte. -/
theorem execute_done_short (s : Sock) (st : TokState) (ret : Int) (reply : Bytes)
    (called : Option (Handler × List Bytes))
    (hlen : (reply_text ret reply).length < 256)
    (hfit : st.p + (reply_text ret reply).length + 1 ≤ st.cmd.length) :
    ∃ out, execute_done s st ret reply called = some out ∧
      out.ret = (if (reply_text ret reply).length + 2 ≤ s.wcap then 0 else -1) ∧
      out.called = called ∧ out.s.input = s.input ∧
      out.s.output = s.output ++
        ((reply_text ret reply).length :: 0 :: reply_text ret reply).take s.wcap ∧
      out.s.wcap = s.wcap - ((reply_text ret reply).length + 2) := by
  obtain ⟨out, h1, h2, h3, h4, h5, h6⟩ := execute_done_fits s st ret reply called
    (by have : BUFFER_MAX = 1024 := rfl; omega) hfit
  refine ⟨out, h1, h2, h3, h4, ?_, h6⟩
  rw [h5, Nat.mod_eq_of_lt hlen, Nat.div_eq_of_lt hlen]

/-- The block `done` when the reply and its NUL do not fit between the
`cmd` pointer and the end of the buffer: `snprintf` stores behind the
buffer. -/
theorem execute_done_overflow (s : Sock) (st : TokState) (ret : Int) (reply : Bytes)
    (called : Option (Handler × List Bytes))
    (hlen : (reply_text ret reply).length < BUFFER_MAX)
    (hover : st.cmd.length < st.p + (reply_text ret reply).length + 1) :
    execute_done s st ret reply called = none := by
  have hB : BUFFER_MAX = 1024 := rfl
  rw [hB] at hlen
  have hst : snprintf_stored BUFFER_MAX (reply_text ret reply) = reply_text ret reply := by
    simp only [snprintf_stored, hB]
    exact List.take_of_length_le (by omega)
  unfold execute_done
  simp only [hst, List.length_append, List.length_singleton]
  rw [if_neg (by omega)]

/-- The block `done` with the `cmd` pointer at one of the last two bytes of
the buffer: whatever the reply, `snprintf` stores behind the buffer. -/
theorem execute_done_no_room (s : Sock) (st : TokState) (ret : Int) (reply : Bytes)
    (called : Option (Handler × List Bytes)) (h : st.cmd.length < st.p + 2) :
    execute_done s st ret reply called = none := by
  have hne := reply_text_ne_nil ret reply
  have hl : 1 ≤ (snprintf_stored BUFFER_MAX (reply_text ret reply)).length := by
    cases hr : reply_text ret reply with
    | nil => exact absurd hr hne
    | cons a t => simp [snprintf_stored, BUFFER_MAX]
  unfold execute_done
  simp only [List.length_append, List.length_singleton]
  rw [if_neg (by omega)]

/-! ## The tokenizer -/

/-- The tokenizer loop never runs out of fuel: with more fuel than bytes
left in the buffer the result does not depend on the fuel, so `fault` only
stands for a read outside the buffer. -/
theorem tokenize_loop_fuel (fuel : Nat) :
    ∀ (st : TokState) (k : Nat), st.cmd.length < st.p + fuel →
      tokenize_loop (fuel + k) st = tokenize_loop fuel st := by
  induction fuel with
  | zero =>
    intro st k h
    have hnone : st.cmd[st.p]? = none := List.getElem?_eq_none (by omega)
    cases k with
    | zero => rfl
    | succ k => simp [tokenize_loop, hnone]
  | succ fuel ih =>
    intro st k h
    have hk : fuel + 1 + k = (fuel + k) + 1 := by omega
    rw [hk]
    simp only [tokenize_loop]
    cases hc : st.cmd[st.p]? with
    | none => rfl
    | some c =>
      simp only
      split
      · rfl
      · split
        · split
          · rfl
          · exact ih _ k (by simp; omega)
        · exact ih _ k (by simp; omega)

theorem getElem?_at_length (pre : Bytes) (c : Nat) (t : Bytes) :
    (pre ++ c :: t)[pre.length]? = some c := by
  rw [List.getElem?_append_right (Nat.le_refl _)]
  simp

/-- The tokenizer loop walks over bytes that are neither NUL nor
whitespace without changing anything but the `cmd` pointer. -/
theorem tokenize_loop_plain (w : Bytes) :
    ∀ (fuel n : Nat) (pre tail : Bytes) (arg : List Nat),
      (∀ b ∈ w, b ≠ 0 ∧ isspace b = false) →
      tokenize_loop (fuel + w.length) ⟨pre ++ (w ++ tail), pre.length, n, arg⟩ =
        tokenize_loop fuel ⟨pre ++ (w ++ tail), pre.length + w.length, n, arg⟩ := by
  induction w with
  | nil => intro fuel n pre tail arg _; rfl
  | cons c w1 ih =>
    intro fuel n pre tail arg hw
    have hc := hw c (by simp)
    have hget : (pre ++ (c :: w1 ++ tail))[pre.length]? = some c := by
      rw [List.cons_append]; exact getElem?_at_length _ _ _
    have hf : fuel + (c :: w1).length = (fuel + w1.length) + 1 := by simp; omega
    rw [hf]
    simp only [tokenize_loop, hget, if_neg hc.1, hc.2]
    have h := ih fuel n (pre ++ [c]) tail arg (fun b hb => hw b (by simp [hb]))
    simp only [List.length_append, List.length_singleton, List.append_assoc,
      List.singleton_append] at h
    simp only [List.cons_append, List.length_cons] at h ⊢
    rw [show pre.length + (w1.length + 1) = pre.length + 1 + w1.length by omega]
    exact h

theorem cstr_append_nul (name t : Bytes) (h : ∀ b ∈ name, b ≠ 0) :
    cstr (name ++ 0 :: t) 0 = name := by
  unfold cstr
  simp only [List.drop_zero]
  induction name with
  | nil => simp
  | cons c cs ih =>
    have hc : c ≠ 0 := h c (by simp)
    simp only [List.cons_append, List.takeWhile_cons, bne_iff_ne, ne_eq, hc, not_false_eq_true,
      decide_True, if_true]
    rw [ih (fun b hb => h b (by simp [hb]))]

/-- A request `name`, one blank, and an argument of plain bytes: the
tokenizer finishes at the terminator with one argument. The first byte of the
argument is stepped over. -/
theorem tokenize_one_arg (name w tail : Bytes) (y : Nat)
    (hname : ∀ b ∈ name, b ≠ 0 ∧ isspace b = false)
    (hw : ∀ b ∈ w, b ≠ 0 ∧ isspace b = false) :
    tokenize (name ++ 32 :: y :: (w ++ 0 :: tail)) =
      .finished ⟨name ++ 0 :: y :: (w ++ 0 :: tail), name.length + 2 + w.length, 1,
        [0, name.length + 1]⟩ := by
  have h1 := tokenize_loop_plain name (w.length + tail.length + 4) 0 []
    (32 :: y :: (w ++ 0 :: tail)) [0] hname
  simp only [List.nil_append, List.length_nil, Nat.zero_add] at h1
  have hl : (name ++ 32 :: y :: (w ++ 0 :: tail)).length + 1 =
      w.length + tail.length + 4 + name.length := by
    simp only [List.length_append, List.length_cons]; omega
  unfold tokenize
  rw [hl, h1]
  have hget : (name ++ 32 :: y :: (w ++ 0 :: tail))[name.length]? = some 32 :=
    getElem?_at_length name 32 _
  have hset : (name ++ 32 :: y :: (w ++ 0 :: tail)).set name.length 0 =
      (name ++ [0, y]) ++ (w ++ 0 :: tail) := by simp
  have hf : w.length + tail.length + 4 = (tail.length + 3 + w.length) + 1 := by omega
  rw [hf]
  simp only [tokenize_loop, hget, hset]
  have h32 : isspace 32 = true := by decide
  simp only [h32, if_true, Nat.zero_add]
  rw [if_neg (by decide), if_neg (by decide)]
  have h2 := tokenize_loop_plain w (tail.length + 3) 1 (name ++ [0, y]) (0 :: tail)
    ([0] ++ [name.length + 1]) hw
  have hp : name.length + 1 + 1 = (name ++ [0, y]).length := by simp
  rw [hp, h2]
  have hget2 : ((name ++ [0, y]) ++ (w ++ 0 :: tail))[(name ++ [0, y]).length + w.length]? =
      some 0 := by
    rw [← List.append_assoc, ← List.length_append]
    exact getElem?_at_length _ 0 tail
  simp only [tokenize_loop, hget2, if_true]
  simp

theorem count_tokens_aux_false_le (u : Bytes) :
    count_tokens_aux false u ≤ count_tokens_aux true u + 1 := by
  cases u with
  | nil => simp [count_tokens_aux]
  | cons c cs =>
    simp only [count_tokens_aux]
    split
    · exact Nat.le_succ _
    · simp; omega

/-- The tokenizer loop, started at the head of `u` with the counter at `n`,
stops at `TOKEN_MAX` when `u` has no NUL and still holds enough token starts
behind a whitespace; it stops before the last byte of `u`. -/
theorem tokenize_loop_too_many (k : Nat) :
    ∀ (u : Bytes), u.length ≤ k → ∀ (fuel n : Nat) (pre rest : Bytes) (arg : List Nat),
      (∀ b ∈ u, b ≠ 0) → n < TOKEN_MAX → TOKEN_MAX ≤ n + count_tokens_aux true u →
      u.length < fuel →
      ∃ st, tokenize_loop fuel ⟨pre ++ (u ++ 0 :: rest), pre.length, n, arg⟩ = .too_many st ∧
        st.n = TOKEN_MAX ∧ st.p + 1 ≤ pre.length + u.length ∧
        st.cmd.length = pre.length + (u.length + (rest.length + 1)) := by
  induction k using Nat.strong_induction_on with
  | _ k ih =>
    intro u hk fuel n pre rest arg hnul hn hcnt hfuel
    cases u with
    | nil => simp [count_tokens_aux] at hcnt; omega
    | cons c u1 =>
      cases fuel with
      | zero => omega
      | succ fuel =>
        have hc : c ≠ 0 := hnul c (by simp)
        have hget : (pre ++ (c :: u1 ++ 0 :: rest))[pre.length]? = some c := by
          rw [List.cons_append]; exact getElem?_at_length _ _ _
        simp only [tokenize_loop, hget, if_neg hc]
        by_cases hsp : isspace c = true
        · simp only [hsp, if_true]
          by_cases h8 : n + 1 = TOKEN_MAX
          · rw [if_pos h8]
            refine ⟨_, rfl, h8, ?_, ?_⟩
            · cases u1 with
              | nil => simp [count_tokens_aux, hsp] at hcnt; omega
              | cons d u2 => simp; omega
            · simp; omega
          · rw [if_neg h8]
            cases u1 with
            | nil => simp [count_tokens_aux, hsp] at hcnt; omega
            | cons d u2 =>
              have hcnt2 : TOKEN_MAX ≤ n + 1 + count_tokens_aux true u2 := by
                have h1 := count_tokens_aux_false_le u2
                simp only [count_tokens_aux, hsp, if_true] at hcnt
                by_cases hdsp : isspace d = true
                · simp only [hdsp, if_true] at hcnt; omega
                · simp only [hdsp] at hcnt; simp at hcnt; omega
              have hd : ∀ b ∈ u2, b ≠ 0 := fun b hb => hnul b (by simp [hb])
              simp only [List.length_cons] at hk hfuel
              obtain ⟨st, h1, h2, h3, h4⟩ := ih (k - 1) (by omega) u2 (by omega) fuel (n + 1)
                (pre ++ [0, d]) rest (arg ++ [(pre ++ [0, d]).length - 1]) hd (by omega) hcnt2
                (by omega)
              refine ⟨st, ?_, h2, ?_, ?_⟩
              · rw [← h1]; congr 1; simp
              · simp at h3 ⊢; omega
              · simp at h4 ⊢; omega
        · simp only [hsp]
          have hcnt2 : TOKEN_MAX ≤ n + count_tokens_aux true u1 := by
            simp only [count_tokens_aux, hsp] at hcnt
            simpa using hcnt
          have hd : ∀ b ∈ u1, b ≠ 0 := fun b hb => hnul b (by simp [hb])
          simp only [List.length_cons] at hk hfuel
          obtain ⟨st, h1, h2, h3, h4⟩ := ih (k - 1) (by omega) u1 (by omega) fuel n
            (pre ++ [c]) rest arg hd hn hcnt2 (by omega)
          refine ⟨st, ?_, h2, ?_, ?_⟩
          · rw [← h1]; simp
          · simp at h3 ⊢; omega
          · simp at h4 ⊢; omega

/-! ## The ways through `execute` -/

/-- Every entry of the table is the first one with its name. -/
theorem lookup_cmds : ∀ e ∈ cmds, lookup e.name cmds = some e := by decide

theorem execute_too_many (ext : Ext) (s : Sock) (cmd : Bytes) (st : TokState)
    (htok : tokenize cmd = .too_many st) :
    execute ext s cmd = execute_done s st (-1) [] none := by
  unfold execute
  rw [htok]

theorem execute_wrong_numargs_eq (ext : Ext) (s : Sock) (cmd : Bytes) (e : cmdinfo)
    (st : TokState) (he : e ∈ cmds) (htok : tokenize cmd = .finished st)
    (hname : cstr st.cmd 0 = e.name) (hn : st.n ≠ e.numargs) :
    execute ext s cmd = execute_done s st (-1) [] none := by
  unfold execute
  rw [htok]
  simp only [hname, lookup_cmds e he, if_pos hn]

theorem execute_call_eq (ext : Ext) (s : Sock) (cmd : Bytes) (e : cmdinfo)
    (st : TokState) (he : e ∈ cmds) (htok : tokenize cmd = .finished st)
    (hname : cstr st.cmd 0 = e.name) (hn : st.n = e.numargs) :
    execute ext s cmd = execute_done s st
      (e.func.call ext ((st.arg.drop 1).map (cstr st.cmd))).1
      (e.func.call ext ((st.arg.drop 1).map (cstr st.cmd))).2
      (some (e.func, (st.arg.drop 1).map (cstr st.cmd))) := by
  unfold execute
  rw [htok]
  simp only [hname, lookup_cmds e he, hn, ne_eq, not_true_eq_false, if_false]

/-- Every call of `execute` either faults in the tokenizer or reaches `done`
with the default reply (`ret = -1`, `reply` empty, no handler called) or with
what a handler of the table returned. -/
theorem execute_cases (ext : Ext) (s : Sock) (cmd : Bytes) :
    (tokenize cmd = .fault ∧ execute ext s cmd = none) ∨
    ∃ st ret reply called,
      (tokenize cmd = .finished st ∨ tokenize cmd = .too_many st) ∧
      execute ext s cmd = execute_done s st ret reply called ∧
      ((ret = -1 ∧ reply = [] ∧ called = none) ∨
        ∃ h arg, called = some (h, arg) ∧ ret = (h.call ext arg).1 ∧
          reply = (h.call ext arg).2) := by
  cases htok : tokenize cmd with
  | fault =>
    left
    refine ⟨rfl, ?_⟩
    unfold execute
    rw [htok]
  | too_many st =>
    right
    exact ⟨st, -1, [], none, Or.inr rfl, execute_too_many ext s cmd st htok,
      Or.inl ⟨rfl, rfl, rfl⟩⟩
  | finished st =>
    right
    cases hl : lookup (cstr st.cmd 0) cmds with
    | none =>
      refine ⟨st, -1, [], none, Or.inl rfl, ?_, Or.inl ⟨rfl, rfl, rfl⟩⟩
      unfold execute
      rw [htok]
      simp only [hl]
    | some c =>
      by_cases hn : st.n = c.numargs
      · refine ⟨st, (c.func.call ext ((st.arg.drop 1).map (cstr st.cmd))).1,
          (c.func.call ext ((st.arg.drop 1).map (cstr st.cmd))).2,
          some (c.func, (st.arg.drop 1).map (cstr st.cmd)), Or.inl rfl, ?_,
          Or.inr ⟨c.func, (st.arg.drop 1).map (cstr st.cmd), rfl, rfl, rfl⟩⟩
        unfold execute
        rw [htok]
        simp only [hl, hn, ne_eq, not_true_eq_false, if_false]
      · refine ⟨st, -1, [], none, Or.inl rfl, ?_, Or.inl ⟨rfl, rfl, rfl⟩⟩
        unfold execute
        rw [htok]
        simp only [hl, ne_eq, hn, not_false_eq_true, if_true]

/-- With collaborators that return values of their C types, no handler
leaves more than 83 bytes in `reply`: only `do_get_size` writes there, four
numbers of at most 20 bytes and three blanks. -/
theorem handler_text_length (ext : Ext) (hext : ext.in_range) (h : Handler)
    (arg : List Bytes) : (h.call ext arg).2.length ≤ 83 := by
  cases h
  case do_get_size =>
    obtain ⟨⟨h1a, h1b⟩, ⟨h2a, h2b⟩, ⟨h3a, h3b⟩, ⟨h4a, h4b⟩⟩ :=
      hext.2 (argv arg 0) (ext.atoi (argv arg 1)) (argv arg 2) (argv arg 3)
        (argv arg 4) (argv arg 5) (argv arg 6)
    have l1 := fmt_d_length_int64 _ h1a h1b
    have l2 := fmt_d_length_int64 _ h2a h2b
    have l3 := fmt_d_length_int64 _ h3a h3b
    have l4 := fmt_d_length_int64 _ h4a h4b
    have hcall : (Handler.do_get_size.call ext arg).2 = snprintf_stored REPLY_MAX
        (get_size_text
          (ext.get_size (argv arg 0) (ext.atoi (argv arg 1)) (argv arg 2) (argv arg 3)
            (argv arg 4) (argv arg 5) (argv arg 6)).2.1
          (ext.get_size (argv arg 0) (ext.atoi (argv arg 1)) (argv arg 2) (argv arg 3)
            (argv arg 4) (argv arg 5) (argv arg 6)).2.2.1
          (ext.get_size (argv arg 0) (ext.atoi (argv arg 1)) (argv arg 2) (argv arg 3)
            (argv arg 4) (argv arg 5) (argv arg 6)).2.2.2.1
          (ext.get_size (argv arg 0) (ext.atoi (argv arg 1)) (argv arg 2) (argv arg 3)
            (argv arg 4) (argv arg 5) (argv arg 6)).2.2.2.2) := rfl
    rw [hcall]
    simp only [snprintf_stored, List.length_take, get_size_text,
      List.length_append, List.length_singleton]
    omega
  all_goals simp [Handler.call, do_ping, do_install, do_dexopt, do_mark_boot_complete,
    do_move_dex, do_rm_dex, do_remove, do_rename, do_fixuid, do_free_cache, do_rm_cache,
    do_rm_code_cache, do_rm_user_data, do_movefiles, do_linklib, do_mk_user_data,
    do_mk_user_config, do_rm_user, do_idmap, do_restorecon_data, do_patchoat]

/-- The sample collaborators return values of their C types. -/
theorem ext_zero_in_range : ext_zero.in_range := by
  constructor
  · intro h arg
    cases h <;> simp [Handler.call, do_ping, do_install, do_dexopt, do_mark_boot_complete,
      do_move_dex, do_rm_dex, do_remove, do_rename, do_fixuid, do_free_cache, do_rm_cache,
      do_rm_code_cache, do_get_size, do_rm_user_data, do_movefiles, do_linklib, do_mk_user_data,
      do_mk_user_config, do_rm_user, do_idmap, do_restorecon_data, do_patchoat, ext_zero]
  · intro a b c d e f g
    simp only [ext_zero]
    norm_num

/-- With collaborators that return values of their C types, the text that
reaches `done` has at most 95 bytes. -/
theorem reply_text_length_95 (ext : Ext) (hext : ext.in_range) (ret : Int) (reply : Bytes)
    (called : Option (Handler × List Bytes))
    (h : (ret = -1 ∧ reply = [] ∧ called = none) ∨
      ∃ h arg, called = some (h, arg) ∧ ret = (h.call ext arg).1 ∧
        reply = (h.call ext arg).2) :
    (reply_text ret reply).length ≤ 95 := by
  rcases h with ⟨h1, h2, _⟩ | ⟨h, arg, _, h1, h2⟩
  · rw [h1, h2]; decide
  · have l1 := reply_text_length_le ret reply
    have l2 := fmt_d_length_int32 ret (by rw [h1]; exact (hext.1 h arg).1)
      (by rw [h1]; exact (hext.1 h arg).2)
    have l3 := handler_text_length ext hext h arg
    rw [← h2] at l3
    omega

/-! ## A frame in range -/

/-- A turn of the connection loop on a frame whose declared length is in
range and whose payload is in the stream: `execute` runs on the payload, a
NUL, and what the buffer held behind them. -/
theorem conn_iter_valid_frame (ext : Ext) (s : Sock) (buf : Bytes) (b0 b1 : Nat)
    (payload rest1 : Bytes) (hin : s.input = b0 :: b1 :: (payload ++ rest1))
    (hlen : payload.length = b0 + 256 * b1) (h1 : 1 ≤ payload.length)
    (h2 : payload.length < BUFFER_MAX) :
    conn_iter ext s buf = after_execute
      (execute ext { s with input := rest1 } (payload ++ 0 :: buf.drop (payload.length + 1))) := by
  have hB : BUFFER_MAX = 1024 := rfl
  have hr2 : readx s 2 = (0, { s with input := payload ++ rest1 }, [b0, b1]) := by
    simp [readx, hin]
  have hr : readx { s with input := payload ++ rest1 } (b0 + 256 * b1) =
      (0, { s with input := rest1 }, payload) := by
    simp [readx, ← hlen]
  unfold conn_iter
  rw [hr2]
  simp only [List.getD_cons_zero, List.getD_cons_succ]
  rw [if_neg (by omega), hr]
  simp only
  congr 2
  rw [← hlen]
  simp only [write_at, List.take_zero, List.nil_append, Nat.zero_add, List.length_singleton]
  rw [List.take_left' rfl]
  simp [List.drop_append_eq_append_drop, List.drop_drop]

/-! ## C1: a wrong argument count -/

/-- A request for an entry of `cmds` with another argument count than the
declared one (whether the tokenizer finished or stopped at `TOKEN_MAX`), when
the reply `"-1"` and its NUL fit in the buffer from the `cmd` pointer:
`execute` calls no handler and writes the four bytes 2, 0, `'-'`, `'1'` as far
as the peer takes them; it returns 0 when the peer took all four and -1
otherwise. -/
theorem execute_wrong_numargs (ext : Ext) (s : Sock) (cmd : Bytes) (e : cmdinfo)
    (st : TokState) (he : e ∈ cmds)
    (htok : tokenize cmd = .finished st ∨ tokenize cmd = .too_many st)
    (hname : cstr st.cmd 0 = e.name) (hn : st.n ≠ e.numargs)
    (hfit : st.p + 3 ≤ st.cmd.length) :
    ∃ out, execute ext s cmd = some out ∧ out.called = none ∧
      out.ret = (if 4 ≤ s.wcap then 0 else -1) ∧
      out.s.output = s.output ++ ([2, 0, 45, 49] : Bytes).take s.wcap := by
  have htext : reply_text (-1) [] = [45, 49] := by decide
  have hex : execute ext s cmd = execute_done s st (-1) [] none := by
    rcases htok with h | h
    · exact execute_wrong_numargs_eq ext s cmd e st he h hname hn
    · exact execute_too_many ext s cmd st h
  obtain ⟨out, o1, o2, o3, _, o5, _⟩ := execute_done_short s st (-1) [] none
    (by rw [htext]; decide) (by rw [htext]; exact hfit)
  rw [htext] at o2 o5
  exact ⟨out, by rw [hex, o1], o3, o2, o5⟩

/-- The request `"ping x"`: one argument where `ping` takes none. -/
theorem execute_wrong_numargs_ping_x :
    ∃ out, execute ext_zero ⟨[], [], 16⟩ (str "ping x" ++ [0, 0, 0, 0]) = some out ∧
      out.called = none ∧ out.ret = (if 4 ≤ 16 then 0 else -1) ∧
      out.s.output = [] ++ ([2, 0, 45, 49] : Bytes).take 16 :=
  execute_wrong_numargs ext_zero ⟨[], [], 16⟩ (str "ping x" ++ [0, 0, 0, 0])
    ⟨str "ping", 0, .do_ping⟩ ⟨str "ping" ++ [0] ++ str "x" ++ [0, 0, 0, 0], 6, 1, [0, 5]⟩
    (by decide) (Or.inl (by decide)) (by decide) (by decide) (by decide)

/-- C1 does not hold of the code at the request of 1022 bytes `ping`, a
blank and 1017 letters `z`, in the 1024-byte buffer of `main` (whatever its
last byte `b`): the tokenizer finishes at the terminator, offset 1022, with
the first token `ping` and `n = 1`, where `ping` takes no argument; the reply
`"-1"` and its NUL need the offsets 1022, 1023 and 1024, so `snprintf` stores
behind the buffer, for all collaborators and every socket. The connection
loop accepts the request as a frame of the declared length 254 + 256 * 3. -/
theorem execute_wrong_numargs_overflows (ext : Ext) (s : Sock) (b : Nat) :
    ping_long_payload.length = 1022 ∧
    tokenize (ping_long_payload ++ [0, b]) =
      .finished ⟨str "ping" ++ 0 :: 122 :: (List.replicate 1016 122 ++ [0, b]), 1022, 1,
        [0, 5]⟩ ∧
    (str "ping" ++ 0 :: 122 :: (List.replicate 1016 122 ++ [0, b])).length = BUFFER_MAX ∧
    cstr (str "ping" ++ 0 :: 122 :: (List.replicate 1016 122 ++ [0, b])) 0 = str "ping" ∧
    lookup (str "ping") cmds = some ⟨str "ping", 0, .do_ping⟩ ∧
    execute ext s (ping_long_payload ++ [0, b]) = none ∧
    conn_iter ext { s with input := 254 :: 3 :: (ping_long_payload ++ s.input) }
      (List.replicate 1023 0 ++ [b]) = .fault := by
  have hlen : ping_long_payload.length = 1022 := by
    simp only [ping_long_payload, List.length_append, List.length_cons, List.length_replicate]
    rfl
  have hbuf : ping_long_payload ++ [0, b] =
      str "ping" ++ 32 :: 122 :: (List.replicate 1016 122 ++ 0 :: [b]) := by
    simp only [ping_long_payload, List.append_assoc, List.cons_append]
  have htok : tokenize (ping_long_payload ++ [0, b]) =
      .finished ⟨str "ping" ++ 0 :: 122 :: (List.replicate 1016 122 ++ [0, b]), 1022, 1,
        [0, 5]⟩ := by
    have h := tokenize_one_arg (str "ping") (List.replicate 1016 122) [b] 122 (by decide)
      (by intro x hx; rw [List.eq_of_mem_replicate hx]; decide)
    rw [List.length_replicate] at h
    rw [hbuf]
    exact h
  have hcl : (str "ping" ++ 0 :: 122 :: (List.replicate 1016 122 ++ [0, b])).length =
      BUFFER_MAX := by
    simp only [List.length_append, List.length_cons, List.length_replicate, List.length_nil]
    rfl
  have hname : cstr (str "ping" ++ 0 :: 122 :: (List.replicate 1016 122 ++ [0, b])) 0 =
      str "ping" := cstr_append_nul (str "ping") _ (by decide)
  have htext : reply_text (-1) [] = [45, 49] := by decide
  have hex : ∀ s1 : Sock, execute ext s1 (ping_long_payload ++ [0, b]) = none := by
    intro s1
    rw [execute_wrong_numargs_eq ext s1 _ ⟨str "ping", 0, .do_ping⟩ _ (by decide) htok hname
      (Nat.succ_ne_zero 0)]
    refine execute_done_overflow _ _ _ _ _ (by rw [htext]; decide) ?_
    rw [htext]
    show (str "ping" ++ 0 :: 122 :: (List.replicate 1016 122 ++ [0, b])).length < 1022 + 2 + 1
    rw [hcl]
    decide
  refine ⟨hlen, htok, hcl, hname, by decide, hex s, ?_⟩
  have hiter := conn_iter_valid_frame ext
    { s with input := 254 :: 3 :: (ping_long_payload ++ s.input) } (List.replicate 1023 0 ++ [b])
    254 3 ping_long_payload s.input rfl (by rw [hlen]) (by rw [hlen]; decide)
    (by rw [hlen]; decide)
  have hdrop : (List.replicate 1023 0 ++ [b]).drop (ping_long_payload.length + 1) = [b] := by
    rw [hlen]
    exact List.drop_left' (List.length_replicate 1023 0)
  have happ : ping_long_payload ++ 0 :: [b] = ping_long_payload ++ [0, b] := rfl
  rw [hiter, hdrop, happ, hex]
  rfl

/-! ## C2: more than eight tokens -/

set_option maxRecDepth 1000000 in
/-- C2, as stated, fails: the payload `ping`, a NUL byte and then
`" a b c d e f g h i"` holds ten whitespace-separated tokens, but the
tokenizer stops at the NUL byte with `n = 0`; `execute` calls `do_ping` and
answers `"0"`. The connection loop accepts the payload as a frame of 23
bytes. -/
theorem tokens_behind_nul_are_not_counted :
    count_tokens (str "ping" ++ 0 :: str " a b c d e f g h i") = 10 ∧
    tokenize (str "ping" ++ 0 :: str " a b c d e f g h i" ++ [0, 0]) =
      .finished ⟨str "ping" ++ 0 :: str " a b c d e f g h i" ++ [0, 0], 4, 0, [0]⟩ ∧
    (execute ext_zero ⟨[], [], 16⟩ (str "ping" ++ 0 :: str " a b c d e f g h i" ++ [0, 0])).map
        (fun out => (out.called, out.ret, out.s.output)) =
      some (some (.do_ping, []), 0, 1 :: 0 :: str "0") ∧
    (serve_connection ext_zero 2
        ⟨23 :: 0 :: (str "ping" ++ 0 :: str " a b c d e f g h i"), [], 16⟩
        (List.replicate 1024 0) []).map (fun r => (r.1.output, r.2.2)) =
      some (1 :: 0 :: str "0", [(.do_ping, [])]) := by
  refine ⟨?_, ?_, ?_, ?_⟩ <;> decide

/-- C2, amended: for every request that `execute` receives as the C string
`payload` (no NUL byte before the terminator) with 9 or more
whitespace-separated tokens, whatever the length of the whitespace runs and
whatever follows the terminator in the buffer: the tokenizer stops at
`n = TOKEN_MAX` before the last byte of the payload. When the reply `"-1"` and
its NUL fit in the buffer from the `cmd` pointer (they always do when a byte
of the buffer follows the terminator), `execute` calls no handler and answers
with the result code -1: it writes the four bytes 2, 0, `'-'`, `'1'` as far as
the peer takes them and returns 0 when the peer took all four, -1 otherwise.
When the reply does not fit, `snprintf` stores behind the buffer. -/
theorem execute_too_many_tokens (ext : Ext) (s : Sock) (payload rest : Bytes)
    (hnul : ∀ b ∈ payload, b ≠ 0) (h9 : 9 ≤ count_tokens payload) :
    ∃ st, tokenize (payload ++ 0 :: rest) = .too_many st ∧ st.n = TOKEN_MAX ∧
      st.p + 1 ≤ payload.length ∧ st.cmd.length = payload.length + 1 + rest.length ∧
      (rest ≠ [] → st.p + 3 ≤ st.cmd.length) ∧
      if st.p + 3 ≤ st.cmd.length then
        ∃ out, execute ext s (payload ++ 0 :: rest) = some out ∧ out.called = none ∧
          out.ret = (if 4 ≤ s.wcap then 0 else -1) ∧
          out.s.output = s.output ++ ([2, 0, 45, 49] : Bytes).take s.wcap
      else execute ext s (payload ++ 0 :: rest) = none := by
  have h8 : TOKEN_MAX ≤ 0 + count_tokens_aux true payload := by
    have h1 := count_tokens_aux_false_le payload
    have h2 : TOKEN_MAX = 8 := rfl
    unfold count_tokens at h9
    omega
  obtain ⟨st, h1, h2, h3, h4⟩ := tokenize_loop_too_many payload.length payload (Nat.le_refl _)
    ((payload ++ 0 :: rest).length + 1) 0 [] rest [0] hnul (by decide) h8 (by simp; omega)
  have htok : tokenize (payload ++ 0 :: rest) = .too_many st := h1
  have hex := execute_too_many ext s (payload ++ 0 :: rest) st htok
  have htext : reply_text (-1) [] = [45, 49] := by decide
  have h3a : st.p + 1 ≤ payload.length := by simpa using h3
  have h4a : st.cmd.length = payload.length + 1 + rest.length := by simp at h4; omega
  have hrest : rest ≠ [] → st.p + 3 ≤ st.cmd.length := by
    intro hr
    have : 1 ≤ rest.length := by
      cases rest with
      | nil => exact absurd rfl hr
      | cons a t => simp
    omega
  refine ⟨st, htok, h2, h3a, h4a, hrest, ?_⟩
  split
  · rename_i hfit
    obtain ⟨out, o1, o2, o3, _, o5, _⟩ := execute_done_short s st (-1) [] none
      (by rw [htext]; decide) (by rw [htext]; exact hfit)
    rw [htext] at o2 o5
    exact ⟨out, by rw [hex, o1], o3, o2, o5⟩
  · rename_i hfit
    rw [hex]
    exact execute_done_overflow s st (-1) [] none (by rw [htext]; decide)
      (by rw [htext]; simp only [List.length_cons, List.length_nil]; omega)

/-- C2, amended, at nine one-letter tokens with runs of one, two and three
blanks. -/
theorem execute_too_many_tokens_witness :
    ∃ st, tokenize (str "a b  c   d e f g h i" ++ 0 :: [7, 7]) = .too_many st ∧
      st.n = TOKEN_MAX ∧
      st.p + 1 ≤ (str "a b  c   d e f g h i").length ∧
      st.cmd.length = (str "a b  c   d e f g h i").length + 1 + ([7, 7] : Bytes).length ∧
      (([7, 7] : Bytes) ≠ [] → st.p + 3 ≤ st.cmd.length) ∧
      if st.p + 3 ≤ st.cmd.length then
        ∃ out, execute ext_zero ⟨[], [], 8⟩ (str "a b  c   d e f g h i" ++ 0 :: [7, 7]) =
            some out ∧ out.called = none ∧
          out.ret = (if 4 ≤ (⟨[], [], 8⟩ : Sock).wcap then 0 else -1) ∧
          out.s.output = (⟨[], [], 8⟩ : Sock).output ++
            ([2, 0, 45, 49] : Bytes).take (⟨[], [], 8⟩ : Sock).wcap
      else execute ext_zero ⟨[], [], 8⟩ (str "a b  c   d e f g h i" ++ 0 :: [7, 7]) = none :=
  execute_too_many_tokens ext_zero ⟨[], [], 8⟩ (str "a b  c   d e f g h i") [7, 7]
    (by decide) (by decide)

/-! ## C3: the declared frame length -/

/-- C3: let the next two bytes of the stream be `b0`, `b1`, declaring the
length `c = b0 + 256 * b1`. If `c` is 0 or at least `BUFFER_MAX`, the turn
leaves the loop before `execute`: only the two bytes are consumed, nothing is
written, the buffer is untouched, and `serve_connection` closes with no
further call. If `1 ≤ c ≤ 1023` and the `c` bytes `payload` follow, the turn
calls `execute` on the buffer holding `payload`, then a NUL, then what the
buffer held before. -/
theorem conn_iter_frame_length (ext : Ext) (s : Sock) (buf : Bytes) (b0 b1 : Nat)
    (rest : Bytes) (hin : s.input = b0 :: b1 :: rest) :
    ((b0 + 256 * b1 = 0 ∨ BUFFER_MAX ≤ b0 + 256 * b1) →
      conn_iter ext s buf = .brk { s with input := rest } buf ∧
      ∀ fuel calls, serve_connection ext (fuel + 1) s buf calls =
        some ({ s with input := rest }, buf, calls)) ∧
    (∀ payload rest1, 1 ≤ b0 + 256 * b1 → b0 + 256 * b1 < BUFFER_MAX →
      rest = payload ++ rest1 → payload.length = b0 + 256 * b1 →
      conn_iter ext s buf = after_execute
        (execute ext { s with input := rest1 } (payload ++ 0 :: buf.drop (payload.length + 1)))) := by
  have hr2 : readx s 2 = (0, { s with input := rest }, [b0, b1]) := by
    simp [readx, hin]
  constructor
  · intro hc
    have h1 : conn_iter ext s buf = .brk { s with input := rest } buf := by
      unfold conn_iter
      rw [hr2]
      simp only [List.getD_cons_zero, List.getD_cons_succ]
      rw [if_pos (by omega)]
    refine ⟨h1, ?_⟩
    intro fuel calls
    simp only [serve_connection, h1]
  · intro payload rest1 h1 h2 hrest hlen
    have hB : BUFFER_MAX = 1024 := rfl
    have hr : readx { s with input := rest } (b0 + 256 * b1) =
        (0, { s with input := rest1 }, payload) := by
      simp [readx, hrest, ← hlen]
    unfold conn_iter
    rw [hr2]
    simp only [List.getD_cons_zero, List.getD_cons_succ]
    rw [if_neg (by omega), hr]
    simp only
    congr 2
    rw [← hlen]
    simp only [write_at, List.take_zero, List.nil_append, Nat.zero_add, List.length_singleton]
    rw [List.take_left' rfl]
    simp [List.drop_append_eq_append_drop, List.drop_drop]

/-- C3 at the declared lengths 1024 (bytes `0, 4`) and 4 (bytes `4, 0`,
followed by `ping`). -/
theorem conn_iter_frame_length_witness :
    conn_iter ext_zero ⟨[0, 4, 1, 2], [], 8⟩ [7, 7, 7, 7, 7, 7, 7, 7] =
      .brk ⟨[1, 2], [], 8⟩ [7, 7, 7, 7, 7, 7, 7, 7] ∧
    conn_iter ext_zero ⟨4 :: 0 :: str "ping", [], 8⟩ [7, 7, 7, 7, 7, 7, 7, 7] =
      after_execute (execute ext_zero ⟨[], [], 8⟩ (str "ping" ++ 0 :: [7, 7, 7])) :=
  ⟨((conn_iter_frame_length ext_zero ⟨[0, 4, 1, 2], [], 8⟩ [7, 7, 7, 7, 7, 7, 7, 7] 0 4 [1, 2]
      rfl).1 (Or.inr (by decide))).1,
   (conn_iter_frame_length ext_zero ⟨4 :: 0 :: str "ping", [], 8⟩ [7, 7, 7, 7, 7, 7, 7, 7] 4 0
      (str "ping") rfl).2 (str "ping") [] (by decide) (by decide) (by decide) (by decide)⟩

/-! ## C4: the encoding of the reply -/

/-- A request for an entry of `cmds` with its declared argument count, whose
handler returns the 32-bit code `r` and leaves the text `t`, when the reply
and its NUL fit in the buffer from the `cmd` pointer: `execute` calls that
handler and writes the two count bytes (low byte first) and then the payload,
as far as the peer takes them, where the payload is the decimal `r` when `t`
is empty and the decimal `r`, one blank and `t` otherwise, and the count is
the length of the payload; it returns 0 when the peer took all of it and -1
otherwise. For `ping` the payload is `"0"`. -/
theorem execute_reply_encoding (ext : Ext) (s : Sock) (cmd : Bytes) (e : cmdinfo)
    (st : TokState) (r : Int) (t : Bytes) (he : e ∈ cmds)
    (htok : tokenize cmd = .finished st)
    (hname : cstr st.cmd 0 = e.name) (hn : st.n = e.numargs)
    (hcall : e.func.call ext ((st.arg.drop 1).map (cstr st.cmd)) = (r, t))
    (hr1 : -2 ^ 31 ≤ r) (hr2 : r < 2 ^ 31)
    (hfit : st.p + (reply_text r t).length + 1 ≤ st.cmd.length) :
    ∃ out payload, execute ext s cmd = some out ∧
      out.called = some (e.func, (st.arg.drop 1).map (cstr st.cmd)) ∧
      payload = (if t = [] then fmt_d r else fmt_d r ++ [32] ++ t) ∧
      payload.length ≤ 267 ∧
      out.ret = (if payload.length + 2 ≤ s.wcap then 0 else -1) ∧
      out.s.output = s.output ++
        (payload.length % 256 :: payload.length / 256 % 256 :: payload).take s.wcap ∧
      (e.name = str "ping" → payload = str "0") := by
  have ht : t.length ≤ REPLY_MAX - 1 := by
    have := handler_reply_length e.func ext ((st.arg.drop 1).map (cstr st.cmd))
    rw [hcall] at this
    exact this
  have hlen : (reply_text r t).length ≤ 267 := by
    have h1 := reply_text_length_le r t
    have h2 := fmt_d_length_int32 r hr1 hr2
    have h3 : REPLY_MAX = 256 := rfl
    omega
  have hex := execute_call_eq ext s cmd e st he htok hname hn
  simp only [hcall] at hex
  have htxt : reply_text r t = (if t = [] then fmt_d r else fmt_d r ++ [32] ++ t) := by
    unfold reply_text
    by_cases h : t = [] <;> simp [h]
  obtain ⟨out, o1, o2, o3, _, o5, _⟩ := execute_done_fits s st r t
    (some (e.func, (st.arg.drop 1).map (cstr st.cmd)))
    (by have : BUFFER_MAX = 1024 := rfl; omega) hfit
  refine ⟨out, reply_text r t, by rw [hex, o1], o3, htxt, hlen, o2, o5, ?_⟩
  intro hping
  have hmem : ∀ e ∈ cmds, e.name = str "ping" → e.func = .do_ping := by decide
  have hf := hmem e he hping
  rw [hf] at hcall
  simp only [Handler.call, do_ping, Prod.mk.injEq] at hcall
  rw [← hcall.1, ← hcall.2]
  decide

/-- The request `"ping"`: the count bytes 1, 0 and the payload `"0"`. -/
theorem execute_reply_encoding_ping :
    (execute ext_zero ⟨[], [], 8⟩ (str "ping" ++ [0, 7, 7])).map
        (fun out => (out.called, out.ret, out.s.output)) =
      some (some (.do_ping, []), 0, [1, 0, 48]) := by
  decide

/-- C4 does not hold of the code at the request of 1023 bytes `rmuser`, a
blank and 1016 digits `5`, in the 1024-byte buffer of `main`: the tokenizer
finishes at the terminator,
offset 1023, the last byte of the buffer, with the first token `rmuser` and
`n = 1`, the declared argument count, so `do_rm_user` is called; whatever code
it returns, the reply has at least one byte and its NUL needs an offset from
1024 on, so `snprintf` stores behind the buffer, for all collaborators and
every socket. The connection loop accepts the request as a frame of the
declared length 255 + 256 * 3. -/
theorem execute_reply_overflows (ext : Ext) (s : Sock) :
    rmuser_long_payload.length = 1023 ∧
    tokenize (rmuser_long_payload ++ [0]) =
      .finished ⟨str "rmuser" ++ 0 :: 53 :: (List.replicate 1015 53 ++ [0]), 1023, 1,
        [0, 7]⟩ ∧
    (str "rmuser" ++ 0 :: 53 :: (List.replicate 1015 53 ++ [0])).length = BUFFER_MAX ∧
    cstr (str "rmuser" ++ 0 :: 53 :: (List.replicate 1015 53 ++ [0])) 0 = str "rmuser" ∧
    lookup (str "rmuser") cmds = some ⟨str "rmuser", 1, .do_rm_user⟩ ∧
    execute ext s (rmuser_long_payload ++ [0]) = none ∧
    conn_iter ext { s with input := 255 :: 3 :: (rmuser_long_payload ++ s.input) }
      (List.replicate 1024 0) = .fault := by
  have hlen : rmuser_long_payload.length = 1023 := by
    simp only [rmuser_long_payload, List.length_append, List.length_cons, List.length_replicate]
    rfl
  have hbuf : rmuser_long_payload ++ [0] =
      str "rmuser" ++ 32 :: 53 :: (List.replicate 1015 53 ++ 0 :: []) := by
    simp only [rmuser_long_payload, List.append_assoc, List.cons_append]
  have htok : tokenize (rmuser_long_payload ++ [0]) =
      .finished ⟨str "rmuser" ++ 0 :: 53 :: (List.replicate 1015 53 ++ [0]), 1023, 1,
        [0, 7]⟩ := by
    have h := tokenize_one_arg (str "rmuser") (List.replicate 1015 53) [] 53 (by decide)
      (by intro x hx; rw [List.eq_of_mem_replicate hx]; decide)
    rw [List.length_replicate] at h
    rw [hbuf]
    exact h
  have hcl : (str "rmuser" ++ 0 :: 53 :: (List.replicate 1015 53 ++ [0])).length =
      BUFFER_MAX := by
    simp only [List.length_append, List.length_cons, List.length_replicate, List.length_nil]
    rfl
  have hname : cstr (str "rmuser" ++ 0 :: 53 :: (List.replicate 1015 53 ++ [0])) 0 =
      str "rmuser" := cstr_append_nul (str "rmuser") _ (by decide)
  have hex : ∀ s1 : Sock, execute ext s1 (rmuser_long_payload ++ [0]) = none := by
    intro s1
    rw [execute_call_eq ext s1 _ ⟨str "rmuser", 1, .do_rm_user⟩ _ (by decide) htok hname rfl]
    refine execute_done_no_room _ _ _ _ _ ?_
    show (str "rmuser" ++ 0 :: 53 :: (List.replicate 1015 53 ++ [0])).length < 1023 + 2
    rw [hcl]
    decide
  refine ⟨hlen, htok, hcl, hname, by decide, hex s, ?_⟩
  have hiter := conn_iter_valid_frame ext
    { s with input := 255 :: 3 :: (rmuser_long_payload ++ s.input) } (List.replicate 1024 0)
    255 3 rmuser_long_payload s.input rfl (by rw [hlen]) (by rw [hlen]; decide)
    (by rw [hlen]; decide)
  have hdrop : (List.replicate 1024 0).drop (rmuser_long_payload.length + 1) = ([] : Bytes) := by
    rw [hlen]
    exact List.drop_eq_nil_of_le (Nat.le_of_eq (List.length_replicate 1024 0))
  rw [hiter, hdrop, hex]
  rfl

/-! ## C9: the reply of `getsize` -/

/-- C9, as stated, fails: with `get_size` returning 0 and the sizes 1, 2, 3, 4,
the request `getsize a b c d e f g` is answered with the payload
`"0 1 2 3 4"`, five whitespace-separated integers, the first of which is the
result code. -/
theorem getsize_reply_has_five_fields :
    ∃ out, execute ext_zero ⟨[], [], 32⟩
        (str "getsize a b c d e f g" ++ 0 :: List.replicate 12 0) = some out ∧
      out.called = some (.do_get_size, [str "a", str "b", str "c", str "d", str "e", str "f",
        str "g"]) ∧
      out.s.output = le16 9 ++ str "0 1 2 3 4" ∧
      count_tokens (str "0 1 2 3 4") = 5 ∧
      out.s.output ≠ le16 7 ++ str "1 2 3 4" := by
  refine ⟨_, rfl, ?_, ?_, ?_, ?_⟩ <;> decide

/-- C9, amended: for every `getsize` request with exactly 7 arguments (the
tokenizer finishes at `st` with the first token `getsize` and `n = 7`), for
which `get_size` returns the `int` `res` and leaves the `int64_t` sizes
`codesize`, `datasize`, `cachesize`, `asecsize`: the reply payload is five
decimal integers separated by single blanks, the result code `res` and then
the four sizes in that order, and has at most 95 bytes. When the payload and
its NUL fit in the buffer from the `cmd` pointer, `execute` calls
`do_get_size` and writes the two count bytes `payload.length`, 0 and then the
payload, as far as the peer takes them, returning 0 when the peer took all of
them and -1 otherwise; when they do not fit, `snprintf` stores behind the
buffer. -/
theorem execute_getsize_reply (ext : Ext) (s : Sock) (cmd : Bytes) (st : TokState)
    (res codesize datasize cachesize asecsize : Int)
    (htok : tokenize cmd = .finished st)
    (hname : cstr st.cmd 0 = str "getsize") (hn : st.n = 7)
    (hget : ext.get_size (argv ((st.arg.drop 1).map (cstr st.cmd)) 0)
      (ext.atoi (argv ((st.arg.drop 1).map (cstr st.cmd)) 1))
      (argv ((st.arg.drop 1).map (cstr st.cmd)) 2) (argv ((st.arg.drop 1).map (cstr st.cmd)) 3)
      (argv ((st.arg.drop 1).map (cstr st.cmd)) 4) (argv ((st.arg.drop 1).map (cstr st.cmd)) 5)
      (argv ((st.arg.drop 1).map (cstr st.cmd)) 6) =
        (res, codesize, datasize, cachesize, asecsize))
    (hres : -2 ^ 31 ≤ res ∧ res < 2 ^ 31)
    (hcode : -2 ^ 63 ≤ codesize ∧ codesize < 2 ^ 63)
    (hdata : -2 ^ 63 ≤ datasize ∧ datasize < 2 ^ 63)
    (hcache : -2 ^ 63 ≤ cachesize ∧ cachesize < 2 ^ 63)
    (hasec : -2 ^ 63 ≤ asecsize ∧ asecsize < 2 ^ 63) :
    ∃ payload,
      payload = fmt_d res ++ [32] ++ fmt_d codesize ++ [32] ++ fmt_d datasize ++ [32] ++
        fmt_d cachesize ++ [32] ++ fmt_d asecsize ∧
      payload.length ≤ 95 ∧
      if st.p + payload.length + 1 ≤ st.cmd.length then
        ∃ out, execute ext s cmd = some out ∧
          out.called = some (.do_get_size, (st.arg.drop 1).map (cstr st.cmd)) ∧
          out.ret = (if payload.length + 2 ≤ s.wcap then 0 else -1) ∧
          out.s.output = s.output ++ (payload.length :: 0 :: payload).take s.wcap
      else execute ext s cmd = none := by
  have h1 := fmt_d_length_int32 res hres.1 hres.2
  have h2 := fmt_d_length_int64 codesize hcode.1 hcode.2
  have h3 := fmt_d_length_int64 datasize hdata.1 hdata.2
  have h4 := fmt_d_length_int64 cachesize hcache.1 hcache.2
  have h5 := fmt_d_length_int64 asecsize hasec.1 hasec.2
  have hgl : (get_size_text codesize datasize cachesize asecsize).length ≤ 83 := by
    simp [get_size_text]; omega
  have hne : get_size_text codesize datasize cachesize asecsize ≠ [] := by
    simp [get_size_text]
  have hst : snprintf_stored REPLY_MAX (get_size_text codesize datasize cachesize asecsize) =
      get_size_text codesize datasize cachesize asecsize := by
    unfold snprintf_stored
    exact List.take_of_length_le (by have : REPLY_MAX = 256 := rfl; omega)
  have hcall : Handler.do_get_size.call ext ((st.arg.drop 1).map (cstr st.cmd)) =
      (res, get_size_text codesize datasize cachesize asecsize) := by
    simp only [Handler.call, do_get_size, hget, hst]
  have htxt : reply_text res (get_size_text codesize datasize cachesize asecsize) =
      fmt_d res ++ [32] ++ fmt_d codesize ++ [32] ++ fmt_d datasize ++ [32] ++
        fmt_d cachesize ++ [32] ++ fmt_d asecsize := by
    unfold reply_text
    rw [if_pos hne]
    simp [get_size_text]
  have hlen : (reply_text res (get_size_text codesize datasize cachesize asecsize)).length
      ≤ 95 := by
    have := reply_text_length_le res (get_size_text codesize datasize cachesize asecsize)
    omega
  have hex := execute_call_eq ext s cmd ⟨str "getsize", 7, .do_get_size⟩ st (by decide) htok
    hname hn
  simp only [hcall] at hex
  rw [← htxt]
  refine ⟨_, rfl, hlen, ?_⟩
  split
  · rename_i hfit
    obtain ⟨out, o1, o2, o3, _, o5, _⟩ := execute_done_short s st res
      (get_size_text codesize datasize cachesize asecsize)
      (some (.do_get_size, (st.arg.drop 1).map (cstr st.cmd))) (by omega) hfit
    exact ⟨out, by rw [hex, o1], o3, o2, o5⟩
  · rename_i hfit
    rw [hex]
    exact execute_done_overflow s st res _ _ (by have : BUFFER_MAX = 1024 := rfl; omega)
      (by omega)

/-- C9, amended, at `getsize a b c d e f g` with the sizes 1, 2, 3, 4. -/
theorem execute_getsize_reply_witness :
    ∃ payload,
      payload = fmt_d 0 ++ [32] ++ fmt_d 1 ++ [32] ++ fmt_d 2 ++ [32] ++
        fmt_d 3 ++ [32] ++ fmt_d 4 ∧
      payload.length ≤ 95 ∧
      if 21 + payload.length + 1 ≤
          (str "getsize" ++ 0 :: 97 :: 0 :: 98 :: 0 :: 99 :: 0 :: 100 :: 0 :: 101 :: 0 ::
            102 :: 0 :: 103 :: 0 :: List.replicate 12 0).length then
        ∃ out, execute ext_zero ⟨[], [], 32⟩
            (str "getsize a b c d e f g" ++ 0 :: List.replicate 12 0) = some out ∧
          out.called = some (.do_get_size,
            (([0, 8, 10, 12, 14, 16, 18, 20] : List Nat).drop 1).map
              (cstr (str "getsize" ++ 0 :: 97 :: 0 :: 98 :: 0 :: 99 :: 0 :: 100 :: 0 :: 101 ::
                0 :: 102 :: 0 :: 103 :: 0 :: List.replicate 12 0))) ∧
          out.ret = (if payload.length + 2 ≤ 32 then 0 else -1) ∧
          out.s.output = [] ++ (payload.length :: 0 :: payload).take 32
      else execute ext_zero ⟨[], [], 32⟩
        (str "getsize a b c d e f g" ++ 0 :: List.replicate 12 0) = none :=
  execute_getsize_reply ext_zero ⟨[], [], 32⟩
    (str "getsize a b c d e f g" ++ 0 :: List.replicate 12 0)
    ⟨str "getsize" ++ 0 :: 97 :: 0 :: 98 :: 0 :: 99 :: 0 :: 100 :: 0 :: 101 :: 0 ::
        102 :: 0 :: 103 :: 0 :: List.replicate 12 0, 21, 7, [0, 8, 10, 12, 14, 16, 18, 20]⟩
    0 1 2 3 4 (by decide) (by decide) (by decide) rfl (by decide) (by decide) (by decide)
    (by decide) (by decide)

/-! ## C10: the size of the reply -/

/-- C10: for every request (every buffer `cmd` and socket), with
collaborators that return values of their C types (every handler a 32-bit
`int`, `get_size` four `int64_t` sizes): unless the tokenizer reads outside
the buffer, `execute` reaches `done` with a reply payload of at most 95
bytes, which is no more than `REPLY_MAX` = 256; when the payload and its NUL
fit in the buffer from the `cmd` pointer, `execute` writes the count as the
two bytes `payload.length`, 0 (never more than 256) and then the payload, as
far as the peer takes them, and returns 0 when the peer took all of them and
-1 otherwise; when they do not fit, `snprintf` stores behind the buffer. No
encoding is longer than `REPLY_MAX`, so nothing is ever cut off. -/
theorem execute_reply_length_bound (ext : Ext) (hext : ext.in_range) (s : Sock)
    (cmd : Bytes) :
    (tokenize cmd = .fault ∧ execute ext s cmd = none) ∨
    ∃ st payload, (tokenize cmd = .finished st ∨ tokenize cmd = .too_many st) ∧
      payload.length ≤ 95 ∧ payload.length ≤ REPLY_MAX ∧
      if st.p + payload.length + 1 ≤ st.cmd.length then
        ∃ out, execute ext s cmd = some out ∧
          out.ret = (if payload.length + 2 ≤ s.wcap then 0 else -1) ∧
          out.s.output = s.output ++ (payload.length :: 0 :: payload).take s.wcap
      else execute ext s cmd = none := by
  rcases execute_cases ext s cmd with h | ⟨st, ret, reply, called, htok, hex, hwhat⟩
  · exact Or.inl h
  · right
    have hlen := reply_text_length_95 ext hext ret reply called hwhat
    refine ⟨st, reply_text ret reply, htok, hlen, ?_, ?_⟩
    · have : REPLY_MAX = 256 := rfl
      omega
    · split
      · rename_i hfit
        obtain ⟨out, h1, h2, _, _, h5, _⟩ := execute_done_short s st ret reply called
          (by omega) hfit
        exact ⟨out, by rw [hex, h1], h2, h5⟩
      · rename_i hfit
        rw [hex]
        exact execute_done_overflow s st ret reply called
          (by have : BUFFER_MAX = 1024 := rfl; omega) (by omega)

/-- C10 at the sample collaborators and the request `getsize a b c d e f g`. -/
theorem execute_reply_length_bound_witness :
    ext_zero.in_range ∧
    ((tokenize (str "getsize a b c d e f g" ++ 0 :: List.replicate 12 0) = .fault ∧
      execute ext_zero ⟨[], [], 32⟩ (str "getsize a b c d e f g" ++ 0 :: List.replicate 12 0) =
        none) ∨
    ∃ st payload,
      (tokenize (str "getsize a b c d e f g" ++ 0 :: List.replicate 12 0) = .finished st ∨
        tokenize (str "getsize a b c d e f g" ++ 0 :: List.replicate 12 0) = .too_many st) ∧
      payload.length ≤ 95 ∧ payload.length ≤ REPLY_MAX ∧
      if st.p + payload.length + 1 ≤ st.cmd.length then
        ∃ out, execute ext_zero ⟨[], [], 32⟩
            (str "getsize a b c d e f g" ++ 0 :: List.replicate 12 0) = some out ∧
          out.ret = (if payload.length + 2 ≤ (⟨[], [], 32⟩ : Sock).wcap then 0 else -1) ∧
          out.s.output = (⟨[], [], 32⟩ : Sock).output ++
            (payload.length :: 0 :: payload).take (⟨[], [], 32⟩ : Sock).wcap
      else execute ext_zero ⟨[], [], 32⟩
        (str "getsize a b c d e f g" ++ 0 :: List.replicate 12 0) = none) :=
  ⟨ext_zero_in_range, execute_reply_length_bound ext_zero ext_zero_in_range ⟨[], [], 32⟩
    (str "getsize a b c d e f g" ++ 0 :: List.replicate 12 0)⟩

/-! ## The layout migration: rules for `Spec` -/

section SpecRules

variable {σ : Type}

theorem spec_skip : Spec [] (skip : Section σ) := by
  intro r
  exact ⟨[], by simp, rfl, by simp⟩

theorem spec_alogd (msg : String) : Spec (upgrade_step msg).toList (alogd msg : Section σ) := by
  intro r
  refine ⟨[.alogd msg], rfl, ?_, ?_⟩
  · simp only [steps_of, List.filterMap_cons, Ev.step]
    cases upgrade_step msg <;> simp
  · simp [Ev.fatal_failure, Ev.is_write]

theorem spec_aloge (msg : String) : Spec [] (aloge msg : Section σ) := by
  intro r
  exact ⟨[.aloge msg], rfl, rfl, by simp [Ev.fatal_failure, Ev.is_write]⟩

theorem spec_must (sys : Sys σ) (op : Op) (code : Int) (hw : (Ev.call op false).is_write = false)
    (hc : code < 0) : Spec [] (must sys op code) := by
  intro r
  have hw2 : ∀ b, (Ev.call op b).is_write = false := by
    intro b; cases op <;> simp_all [Ev.is_write]
  unfold must
  by_cases h : (call sys op r).1 = true
  · rw [if_pos h]
    refine ⟨[.call op (sys.exec r.st op).1], rfl, rfl, ?_⟩
    intro e he
    simp only [List.mem_singleton] at he
    subst he
    have h1 : (sys.exec r.st op).1 = true := h
    rw [h1]
    exact ⟨rfl, hw2 true⟩
  · rw [if_neg h]
    refine ⟨hc, [.call op (sys.exec r.st op).1], rfl, by simp [steps_of, Ev.step], ?_⟩
    intro e he
    simp only [List.mem_singleton] at he
    subst he
    exact hw2 _

theorem spec_seq {S1 S2 : List Nat} {f g : Section σ} (hf : Spec S1 f) (hg : Spec S2 g) :
    Spec (S1 ++ S2) (seq f g) := by
  intro r
  have h1 := hf r
  unfold seq
  cases hfr : f r with
  | ok r1 =>
    rw [hfr] at h1
    obtain ⟨n1, ht1, hs1, hc1⟩ := h1
    have h2 := hg r1
    dsimp only
    cases hgr : g r1 with
    | ok r2 =>
      rw [hgr] at h2
      obtain ⟨n2, ht2, hs2, hc2⟩ := h2
      refine ⟨n1 ++ n2, by simp [ht2, ht1], by simp [steps_of, ← hs1, ← hs2], ?_⟩
      intro e he
      rcases List.mem_append.1 he with h | h
      · exact hc1 e h
      · exact hc2 e h
    | fail res r2 =>
      rw [hgr] at h2
      obtain ⟨hres, n2, ht2, hs2, hc2⟩ := h2
      refine ⟨hres, n1 ++ n2, by simp [ht2, ht1], ?_, ?_⟩
      · have : steps_of (n1 ++ n2) = S1 ++ steps_of n2 := by simp [steps_of, ← hs1]
        rw [this]
        exact (List.prefix_append_right_inj S1).2 hs2
      · intro e he
        rcases List.mem_append.1 he with h | h
        · exact (hc1 e h).2
        · exact hc2 e h
  | fail res r1 =>
    rw [hfr] at h1
    obtain ⟨hres, n1, ht1, hs1, hc1⟩ := h1
    exact ⟨hres, n1, ht1, hs1.trans (List.prefix_append S1 S2), hc1⟩

theorem spec_ite {S : List Nat} {f g : Section σ} (c : Prop) [Decidable c]
    (hf : Spec S f) (hg : Spec S g) : Spec S (if c then f else g) := by
  split
  · exact hf
  · exact hg

/-- A branch on a call that is neither fatal nor a write of the marker. -/
theorem spec_test {S : List Nat} (sys : Sys σ) (op : Op) {ft ff : Section σ}
    (hfat : op.is_fatal = false) (hw : (Ev.call op false).is_write = false)
    (hft : Spec S ft) (hff : Spec S ff) : Spec S (test sys op ft ff) := by
  have hw2 : ∀ b, (Ev.call op b).is_write = false := by
    intro b; cases op <;> simp_all [Ev.is_write]
  have hpre : Spec [] (fun r : Run σ => Result.ok (call sys op r).2) := by
    intro r
    refine ⟨[.call op (sys.exec r.st op).1], rfl, rfl, ?_⟩
    intro e he
    simp only [List.mem_singleton] at he
    subst he
    refine ⟨?_, hw2 _⟩
    cases (sys.exec r.st op).1 <;> simp [Ev.fatal_failure, hfat]
  intro r
  unfold test
  by_cases h : (call sys op r).1 = true
  · rw [if_pos h]
    have := spec_seq hpre hft r
    simpa [seq] using this
  · rw [if_neg h]
    have := spec_seq hpre hff r
    simpa [seq] using this

/-- The pattern of `must_log` on a call that is not a write of the marker. -/
theorem spec_must_log (sys : Sys σ) (op : Op) (msg : String) (code : Int)
    (hw : (Ev.call op false).is_write = false) (hc : code < 0) :
    Spec [] (must_log sys op msg code) := by
  have hw2 : ∀ b, (Ev.call op b).is_write = false := by
    intro b; cases op <;> simp_all [Ev.is_write]
  intro r
  unfold must_log test
  by_cases h : (call sys op r).1 = true
  · rw [if_pos h]
    refine ⟨[.call op (sys.exec r.st op).1], rfl, rfl, ?_⟩
    intro e he
    simp only [List.mem_singleton] at he
    subst he
    have h1 : (sys.exec r.st op).1 = true := h
    rw [h1]
    exact ⟨rfl, hw2 true⟩
  · rw [if_neg h]
    refine ⟨hc, [.call op (sys.exec r.st op).1, .aloge msg], ?_, ?_, ?_⟩
    · simp [call]
    · simp [steps_of, Ev.step]
    · intro e he
      simp only [List.mem_cons, List.mem_singleton, List.not_mem_nil, or_false] at he
      rcases he with h | h
      · subst h; exact hw2 _
      · subst h; rfl

theorem spec_for_each (body : Dirent → Section σ) (hb : ∀ d, Spec [] (body d)) :
    ∀ l, Spec [] (for_each body l) := by
  intro l
  induction l with
  | nil => exact spec_skip
  | cons d ds ih => exact spec_seq (hb d) ih

theorem spec_with_opendir (sys : Sys σ) (path : String) (k : List Dirent → Section σ)
    (hk : ∀ l, Spec [] (k l)) : Spec [] (with_opendir sys path k) := by
  intro r
  unfold with_opendir
  cases h : sys.opendir r.st path with
  | some entries =>
    have hpre : Spec [] (fun r : Run σ =>
        Result.ok { r with tr := r.tr ++ [.call (.opendir path) true] }) := by
      intro r
      exact ⟨[.call (.opendir path) true], rfl, rfl, by simp [Ev.fatal_failure, Ev.is_write]⟩
    have := spec_seq hpre (hk entries) r
    simpa [seq] using this
  | none =>
    exact ⟨[.call (.opendir path) false], rfl, rfl,
      by simp [Ev.fatal_failure, Ev.is_write, Op.is_fatal]⟩

end SpecRules

/-! ## The layout migration: what each stretch adds to the log -/

section SpecSections

variable {σ : Type}

theorem Spec.cast {S T : List Nat} {f : Section σ} (h : S = T) (hf : Spec S f) : Spec T f :=
  h ▸ hf

theorem spec_seq_nil {S : List Nat} {f g : Section σ} (hf : Spec [] f) (hg : Spec S g) :
    Spec S (seq f g) := spec_seq hf hg

theorem spec_make_user_data_dir (sys : Sys σ) (g : Globals) (dbg : Bool) :
    Spec [] (make_user_data_dir sys g dbg) := by
  unfold make_user_data_dir
  refine spec_test sys _ rfl rfl spec_skip ?_
  refine spec_ite _ (spec_must sys _ _ rfl (by decide)) ?_
  exact spec_seq_nil (spec_must sys _ _ rfl (by decide))
    (spec_seq_nil (spec_must sys _ _ rfl (by decide)) (spec_must sys _ _ rfl (by decide)))

theorem spec_make_primary_symlink (sys : Sys σ) (g : Globals) :
    Spec [] (make_primary_symlink sys g) := by
  unfold make_primary_symlink
  exact spec_test sys _ rfl rfl spec_skip (spec_must sys _ _ rfl (by decide))

theorem spec_ensure_user_media_dirs (sys : Sys σ) (g : Globals) (dbg : Bool) :
    Spec [] (ensure_user_media_dirs sys g dbg) := by
  unfold ensure_user_media_dirs
  refine spec_with_opendir sys _ _ (spec_for_each _ ?_)
  intro d
  exact spec_ite _ (spec_ite _ spec_skip (spec_must sys _ _ rfl (by decide))) spec_skip

theorem spec_upgrade_media (sys : Sys σ) (g : Globals) (dbg : Bool) :
    Spec [0] (upgrade_media sys g dbg) := by
  unfold upgrade_media
  refine Spec.cast (by decide) (spec_seq (spec_alogd _) (?_ : Spec [] _))
  refine spec_seq_nil (spec_must sys _ _ rfl (by decide)) ?_
  refine spec_seq_nil (spec_test sys _ rfl rfl spec_skip
    (spec_must_log sys _ _ _ rfl (by decide))) ?_
  refine spec_seq_nil (spec_must sys _ _ rfl (by split <;> decide)) ?_
  refine spec_seq_nil (spec_must sys _ _ rfl (by decide)) ?_
  refine spec_seq_nil (spec_test sys _ rfl rfl
    (spec_must_log sys _ _ _ rfl (by decide)) spec_skip) ?_
  exact spec_ensure_user_media_dirs sys g dbg

theorem spec_upgrade_obb (sys : Sys σ) (g : Globals) : Spec [1] (upgrade_obb sys g) := by
  unfold upgrade_obb
  refine Spec.cast (by decide) (spec_seq (spec_alogd _) (?_ : Spec [] _))
  exact spec_test sys _ rfl rfl spec_skip
    (spec_test sys _ rfl rfl (spec_must_log sys _ _ _ rfl (by decide)) spec_skip)

theorem spec_ensure_primary_user (sys : Sys σ) (g : Globals) (dbg : Bool) :
    Spec [] (ensure_primary_user sys g dbg) := by
  unfold ensure_primary_user
  exact spec_seq_nil (spec_must_log sys _ _ _ rfl (by decide))
    (spec_seq_nil (spec_must sys _ _ rfl (by decide)) (spec_must_log sys _ _ _ rfl (by decide)))

theorem spec_upgrade_misc_user_entry (sys : Sys σ) (g : Globals) (dbg : Bool) (d : Dirent) :
    Spec [] (upgrade_misc_user_entry sys g dbg d) := by
  unfold upgrade_misc_user_entry
  refine spec_ite _ spec_skip ?_
  refine spec_seq_nil (spec_must sys _ _ rfl (by decide)) ?_
  refine spec_seq_nil (spec_test sys _ rfl rfl
    (spec_test sys _ rfl rfl spec_skip (spec_aloge _)) spec_skip) ?_
  exact spec_test sys _ rfl rfl (spec_test sys _ rfl rfl spec_skip (spec_aloge _)) spec_skip

theorem spec_upgrade_misc_user (sys : Sys σ) (g : Globals) (dbg : Bool) :
    Spec [2] (upgrade_misc_user sys g dbg) := by
  unfold upgrade_misc_user
  refine Spec.cast (by decide) (spec_seq (spec_alogd _) (?_ : Spec [] _))
  refine spec_with_opendir sys _ _ ?_
  intro l
  refine spec_seq_nil (spec_for_each _ (spec_upgrade_misc_user_entry sys g dbg) l) ?_
  refine spec_seq_nil (spec_test sys _ rfl rfl
    (spec_test sys _ rfl rfl spec_skip spec_skip) spec_skip) ?_
  exact spec_test sys _ rfl rfl (spec_test sys _ rfl rfl spec_skip spec_skip) spec_skip

theorem spec_when {S : List Nat} {f : Section σ} (c : Prop) [Decidable c] (hf : Spec S f) :
    Spec (if c then S else []) (if c then f else skip) := by
  split
  · exact hf
  · exact spec_skip

/-- The code before the marker is persisted shows exactly the steps from
the version read at entry, no failure of a fatal call and no write. -/
theorem spec_upgrade (sys : Sys σ) (g : Globals) (dbg : Bool) (v : Int) :
    Spec (steps_from v) (upgrade sys g dbg v) := by
  unfold upgrade steps_from
  refine spec_seq_nil (spec_make_user_data_dir sys g dbg) ?_
  refine spec_seq_nil (spec_make_primary_symlink sys g) ?_
  refine spec_seq ?_ (spec_seq ?_ (spec_seq_nil (spec_ensure_primary_user sys g dbg) ?_))
  · exact spec_when _ (spec_upgrade_media sys g dbg)
  · exact spec_when _ (spec_upgrade_obb sys g)
  · exact spec_when _ (spec_upgrade_misc_user sys g dbg)

theorem seq_assoc (f g h : Section σ) : seq (seq f g) h = seq f (seq g h) := by
  funext r
  unfold seq
  cases f r <;> rfl

/-- The code of `migrate` is the upgrade followed by the persist step. -/
theorem migrate_eq (sys : Sys σ) (g : Globals) (dbg : Bool) (v : Int) :
    migrate sys g dbg v =
      seq (upgrade sys g dbg v) (persist_version sys g v (final_version v)) := by
  unfold migrate upgrade final_version
  simp only [seq_assoc]

end SpecSections

/-! ## The layout migration: the outcome of a run -/

section Outcome

variable {σ : Type}

theorem read_version_fst (sys : Sys σ) (g : Globals) (s : σ) :
    (read_version sys g { st := s, tr := [] }).1 = version_at_entry sys g s := by
  simp only [read_version, version_at_entry, version_path]
  cases h : sys.fs_read_atomic_int s (g.android_data_dir ++ ".layout_version") <;> simp

theorem read_version_tr (sys : Sys σ) (g : Globals) (s : σ) :
    ∃ b, (read_version sys g { st := s, tr := [] }).2.tr =
      [.call (.fs_read_atomic_int (version_path g)) b] := by
  simp only [read_version, version_path]
  cases h : sys.fs_read_atomic_int s (g.android_data_dir ++ ".layout_version")
  · exact ⟨false, by simp⟩
  · exact ⟨true, by simp⟩

/-- The four ways a run ends, with `v` the version read at entry: the upgrade
jumps to `fail`; or it falls through and there is nothing to persist; or the
marker is written; or the write of the marker fails. -/
theorem initialize_directories_outcome (sys : Sys σ) (g : Globals) (dbg : Bool) (s : σ) :
    ∃ b new,
      (∀ e ∈ new, e.is_write = false) ∧
      ((initialize_directories sys g dbg s).1 < 0 ∧
        (initialize_directories sys g dbg s).2.tr =
          .call (.fs_read_atomic_int (version_path g)) b :: new ∧
        steps_of new <+: steps_from (version_at_entry sys g s)
      ∨
      (initialize_directories sys g dbg s).1 = 0 ∧
        final_version (version_at_entry sys g s) = version_at_entry sys g s ∧
        (initialize_directories sys g dbg s).2.tr =
          .call (.fs_read_atomic_int (version_path g)) b :: new ∧
        steps_of new = steps_from (version_at_entry sys g s) ∧
        (∀ e ∈ new, e.fatal_failure = false)
      ∨
      (initialize_directories sys g dbg s).1 = 0 ∧
        final_version (version_at_entry sys g s) ≠ version_at_entry sys g s ∧
        (initialize_directories sys g dbg s).2.tr =
          .call (.fs_read_atomic_int (version_path g)) b :: new ++
            [.call (.fs_write_atomic_int (version_path g)
              (final_version (version_at_entry sys g s))) true] ∧
        steps_of new = steps_from (version_at_entry sys g s) ∧
        (∀ e ∈ new, e.fatal_failure = false)
      ∨
      (initialize_directories sys g dbg s).1 = -17 ∧
        final_version (version_at_entry sys g s) ≠ version_at_entry sys g s ∧
        (initialize_directories sys g dbg s).2.tr =
          .call (.fs_read_atomic_int (version_path g)) b :: new ++
            [.call (.fs_write_atomic_int (version_path g)
              (final_version (version_at_entry sys g s))) false,
             .aloge "Failed to save version"] ∧
        steps_of new = steps_from (version_at_entry sys g s) ∧
        (∀ e ∈ new, e.fatal_failure = false)) := by
  obtain ⟨b, hb⟩ := read_version_tr sys g s
  have hv := read_version_fst sys g s
  have hspec := spec_upgrade sys g dbg (version_at_entry sys g s)
    (read_version sys g { st := s, tr := [] }).2
  unfold initialize_directories
  rw [hv, migrate_eq]
  unfold seq
  cases hu : upgrade sys g dbg (version_at_entry sys g s)
      (read_version sys g { st := s, tr := [] }).2 with
  | fail res r1 =>
    rw [hu] at hspec
    obtain ⟨hres, new, htr, hst, hw⟩ := hspec
    refine ⟨b, new, hw, Or.inl ⟨hres, ?_, hst⟩⟩
    dsimp only
    rw [htr, hb]
    rfl
  | ok r1 =>
    rw [hu] at hspec
    obtain ⟨new, htr, hst, hc⟩ := hspec
    refine ⟨b, new, fun e he => (hc e he).2, Or.inr ?_⟩
    dsimp only
    unfold persist_version
    by_cases hfin : final_version (version_at_entry sys g s) = version_at_entry sys g s
    · refine Or.inl ?_
      rw [if_neg (by simpa using hfin)]
      refine ⟨rfl, hfin, ?_, hst, fun e he => (hc e he).1⟩
      show r1.tr = _
      rw [htr, hb]
      rfl
    · refine Or.inr ?_
      rw [if_pos hfin]
      unfold must_log test
      by_cases hcall : (call sys (.fs_write_atomic_int (g.android_data_dir ++ ".layout_version")
          (final_version (version_at_entry sys g s))) r1).1 = true
      · refine Or.inl ?_
        rw [if_pos hcall]
        refine ⟨rfl, hfin, ?_, hst, fun e he => (hc e he).1⟩
        show (call sys _ r1).2.tr = _
        have h1 : (sys.exec r1.st (.fs_write_atomic_int (g.android_data_dir ++ ".layout_version")
          (final_version (version_at_entry sys g s)))).1 = true := hcall
        simp only [call, h1, htr, hb, version_path]
        rfl
      · refine Or.inr ?_
        rw [if_neg hcall]
        refine ⟨rfl, hfin, ?_, hst, fun e he => (hc e he).1⟩
        have h1 : (sys.exec r1.st (.fs_write_atomic_int (g.android_data_dir ++ ".layout_version")
          (final_version (version_at_entry sys g s)))).1 = false := by
          simpa [call] using hcall
        simp only [seq, aloge, goto_fail, call, h1, htr, hb, version_path]
        simp

end Outcome

/-! ## C5: the version-gated steps and the marker -/

theorem steps_of_cons_call (op : Op) (b : Bool) (l : List Ev) :
    steps_of (.call op b :: l) = steps_of l := by
  simp [steps_of, Ev.step]

theorem steps_of_append_call (l : List Ev) (op : Op) (b : Bool) :
    steps_of (l ++ [.call op b]) = steps_of l := by
  simp [steps_of, Ev.step]

theorem steps_of_append_call_aloge (l : List Ev) (op : Op) (b : Bool) (msg : String) :
    steps_of (l ++ [.call op b, .aloge msg]) = steps_of l := by
  simp [steps_of, Ev.step]

/-- C5: let `v` be the layout version read at entry (0 when the marker is
absent), with `0 ≤ v ≤ 3`. The version-gated steps that run, in the order of
the log, are a prefix of `v, v+1, .., 2` (each at most once, in increasing
order, none below `v`; none at all for `v = 3`), and all of them when the
function returns 0. For `v < 3` a return of 0 ends with the successful write
of the marker with the value 3; a failed write of the marker gives a negative
return; for `v = 3` the marker is not written. -/
theorem initialize_directories_version_steps {σ : Type} (sys : Sys σ) (g : Globals)
    (dbg : Bool) (s : σ)
    (hv : 0 ≤ version_at_entry sys g s ∧ version_at_entry sys g s ≤ 3) :
    steps_of (initialize_directories sys g dbg s).2.tr <+:
      List.range' (version_at_entry sys g s).toNat (3 - (version_at_entry sys g s).toNat) ∧
    ((initialize_directories sys g dbg s).1 = 0 →
      steps_of (initialize_directories sys g dbg s).2.tr =
        List.range' (version_at_entry sys g s).toNat (3 - (version_at_entry sys g s).toNat)) ∧
    ((initialize_directories sys g dbg s).1 = 0 → version_at_entry sys g s < 3 →
      (initialize_directories sys g dbg s).2.tr.getLast? =
        some (.call (.fs_write_atomic_int (version_path g) 3) true)) ∧
    (∀ p x, Ev.call (.fs_write_atomic_int p x) false ∈ (initialize_directories sys g dbg s).2.tr →
      (initialize_directories sys g dbg s).1 < 0) ∧
    (version_at_entry sys g s = 3 →
      ∀ e ∈ (initialize_directories sys g dbg s).2.tr, e.is_write = false) := by
  obtain ⟨b, new, hnw, hcases⟩ := initialize_directories_outcome sys g dbg s
  have hsteps : steps_from (version_at_entry sys g s) =
      List.range' (version_at_entry sys g s).toNat (3 - (version_at_entry sys g s).toNat) := by
    obtain ⟨h0, h3⟩ := hv
    have : version_at_entry sys g s = 0 ∨ version_at_entry sys g s = 1 ∨
        version_at_entry sys g s = 2 ∨ version_at_entry sys g s = 3 := by omega
    rcases this with h | h | h | h <;> rw [h] <;> decide
  have hfinal : version_at_entry sys g s < 3 → final_version (version_at_entry sys g s) = 3 := by
    intro hlt
    obtain ⟨h0, h3⟩ := hv
    have : version_at_entry sys g s = 0 ∨ version_at_entry sys g s = 1 ∨
        version_at_entry sys g s = 2 := by omega
    rcases this with h | h | h <;> rw [h] <;> decide
  have hfinal3 : version_at_entry sys g s = 3 →
      final_version (version_at_entry sys g s) = version_at_entry sys g s := by
    intro h; rw [h]; decide
  have hnotw : ∀ p x c, Ev.call (.fs_write_atomic_int p x) c ∉ new := by
    intro p x c hmem
    have := hnw _ hmem
    simp [Ev.is_write] at this
  rw [← hsteps]
  rcases hcases with ⟨hres, htr, hst⟩ | ⟨hres, hfin, htr, hst, _⟩ | ⟨hres, hfin, htr, hst, _⟩ |
      ⟨hres, hfin, htr, hst, _⟩
  · rw [htr, steps_of_cons_call]
    refine ⟨hst, fun h => by omega, fun h => by omega, fun _ _ _ => hres, ?_⟩
    intro _ e he
    rcases List.mem_cons.1 he with h | h
    · rw [h]; rfl
    · exact hnw e h
  · rw [htr, steps_of_cons_call, hst]
    refine ⟨List.prefix_refl _, fun _ => rfl, ?_, ?_, ?_⟩
    · intro _ hlt
      have := hfinal hlt
      omega
    · intro p x hmem
      rcases List.mem_cons.1 hmem with h | h
      · cases h
      · exact absurd h (hnotw p x false)
    · intro _ e he
      rcases List.mem_cons.1 he with h | h
      · rw [h]; rfl
      · exact hnw e h
  · have hs : steps_of (initialize_directories sys g dbg s).2.tr =
        steps_from (version_at_entry sys g s) := by
      rw [htr, List.cons_append, steps_of_cons_call, steps_of_append_call, hst]
    refine ⟨hs ▸ List.prefix_refl _, fun _ => hs, ?_, ?_, ?_⟩
    · intro _ hlt
      rw [htr, hfinal hlt, List.getLast?_concat]
    · intro p x hmem
      rw [htr] at hmem
      rcases List.mem_append.1 hmem with h | h
      · rcases List.mem_cons.1 h with h | h
        · cases h
        · exact absurd h (hnotw p x false)
      · simp at h
    · intro h3
      exact absurd (hfinal3 h3) hfin
  · have hs : steps_of (initialize_directories sys g dbg s).2.tr =
        steps_from (version_at_entry sys g s) := by
      rw [htr, List.cons_append, steps_of_cons_call, steps_of_append_call_aloge, hst]
    refine ⟨hs ▸ List.prefix_refl _, fun _ => hs, fun h => by omega, fun _ _ _ => by omega, ?_⟩
    intro h3
    exact absurd (hfinal3 h3) hfin

/-- C5 on a system where every call succeeds and no marker exists. -/
theorem initialize_directories_version_steps_witness :
    steps_of (initialize_directories (sys_script (fun _ => false) none (some [])) globals_data
        false ()).2.tr <+: List.range' (0 : Int).toNat (3 - (0 : Int).toNat) ∧
    (initialize_directories (sys_script (fun _ => false) none (some [])) globals_data
        false ()).1 = 0 :=
  ⟨(initialize_directories_version_steps (sys_script (fun _ => false) none (some []))
      globals_data false () (by decide)).1, by decide⟩

/-! ## C6: failing calls -/

/-- C6, as stated, fails: on a system where the copies and the clearing of
the legacy certificate directories fail (every other call succeeds, no
marker, one user `0`), and on a system where `opendir` on the per-user root
fails, `initialize_directories` returns 0 and writes the marker with the
value 3. -/
theorem initialize_directories_tolerates_failures :
    ((initialize_directories (sys_script is_copy_or_clear none (some [⟨"0", DT_DIR⟩]))
        globals_data false ()).1 = 0 ∧
      Ev.call (.copy_dir_files "/data/misc/keychain/cacerts-added"
        "/data/misc/user/0/cacerts-added" 1000 1000) false ∈
        (initialize_directories (sys_script is_copy_or_clear none (some [⟨"0", DT_DIR⟩]))
          globals_data false ()).2.tr ∧
      Ev.call (.delete_dir_contents "/data/misc/keychain/cacerts-added" 1) false ∈
        (initialize_directories (sys_script is_copy_or_clear none (some [⟨"0", DT_DIR⟩]))
          globals_data false ()).2.tr ∧
      Ev.call (.fs_write_atomic_int "/data/.layout_version" 3) true ∈
        (initialize_directories (sys_script is_copy_or_clear none (some [⟨"0", DT_DIR⟩]))
          globals_data false ()).2.tr) ∧
    ((initialize_directories (sys_script (fun _ => false) none none) globals_data false ()).1 = 0 ∧
      Ev.call (.opendir "/data/user/") false ∈
        (initialize_directories (sys_script (fun _ => false) none none)
          globals_data false ()).2.tr ∧
      Ev.call (.fs_write_atomic_int "/data/.layout_version" 3) true ∈
        (initialize_directories (sys_script (fun _ => false) none none)
          globals_data false ()).2.tr) := by
  decide

/-- C6, amended: if a directory creation, a chown or chmod, a symlink, a
rename, the preparation of a directory (`fs_prepare_dir`, also per user), the
relabelling of the media root or the preparation of the media or config
directories of a user fails during `initialize_directories`, the function
returns a negative value (on which `main` exits) and has made no write of
the version marker. -/
theorem initialize_directories_fatal_failure {σ : Type} (sys : Sys σ) (g : Globals)
    (dbg : Bool) (s : σ) (e : Ev)
    (he : e ∈ (initialize_directories sys g dbg s).2.tr) (hf : e.fatal_failure = true) :
    (initialize_directories sys g dbg s).1 < 0 ∧
      ∀ e1 ∈ (initialize_directories sys g dbg s).2.tr, e1.is_write = false := by
  obtain ⟨b, new, hnw, hcases⟩ := initialize_directories_outcome sys g dbg s
  have hclean : (∀ e1 ∈ new, e1.fatal_failure = false) → ∀ tail : List Ev,
      (∀ e1 ∈ tail, e1.fatal_failure = false) →
      (initialize_directories sys g dbg s).2.tr =
        .call (.fs_read_atomic_int (version_path g)) b :: new ++ tail → False := by
    intro hc tail htail htr
    rw [htr] at he
    rcases List.mem_append.1 he with h | h
    · rcases List.mem_cons.1 h with h | h
      · rw [h] at hf
        cases b <;> simp [Ev.fatal_failure, Op.is_fatal] at hf
      · rw [hc e h] at hf
        cases hf
    · rw [htail e h] at hf
      cases hf
  rcases hcases with ⟨hres, htr, _⟩ | ⟨_, _, htr, _, hc⟩ | ⟨_, _, htr, _, hc⟩ | ⟨_, _, htr, _, hc⟩
  · refine ⟨hres, ?_⟩
    intro e1 he1
    rw [htr] at he1
    rcases List.mem_cons.1 he1 with h | h
    · rw [h]; rfl
    · exact hnw e1 h
  · exact absurd (hclean hc [] (by simp) (by simpa using htr)) id
  · exact absurd (hclean hc _ (by simp [Ev.fatal_failure, Op.is_fatal]) htr) id
  · exact absurd (hclean hc _ (by simp [Ev.fatal_failure, Op.is_fatal]) htr) id

/-- C6, amended, on a system where `/data/user` is missing and `mkdir`
fails. -/
theorem initialize_directories_fatal_failure_witness :
    (initialize_directories (sys_script is_mkdir_or_access none none) globals_data false ()).1 < 0 ∧
      ∀ e1 ∈ (initialize_directories (sys_script is_mkdir_or_access none none) globals_data
        false ()).2.tr, e1.is_write = false :=
  initialize_directories_fatal_failure (sys_script is_mkdir_or_access none none) globals_data
    false () (.call (.mkdir "/data/user/" 0o711) false) (by decide) (by decide)

/-! ## C7: a second run -/

set_option maxRecDepth 100000 in
/-- C7 at a fresh data root (no version marker, no legacy directory
`/data/data`): the first run returns 0, having made the link `/data/user/0`
to the missing `/data/data` and written the marker 3; the second run, on the
tree the first one left, returns -18, because `access` does not find the
target of the link and `symlink` finds the link in place. -/
theorem second_run_fails_on_fresh_root :
    ∀ dbg : Bool,
      (initialize_directories (sys_fs globals_data) globals_data dbg fs_fresh).1 = 0 ∧
      fs_read_atomic_int
        (initialize_directories (sys_fs globals_data) globals_data dbg fs_fresh).2.st
        "/data/.layout_version" = some 3 ∧
      (initialize_directories (sys_fs globals_data) globals_data dbg
        (initialize_directories (sys_fs globals_data) globals_data dbg fs_fresh).2.st).1 = -18 ∧
      (initialize_directories (sys_fs globals_data) globals_data dbg
        (initialize_directories (sys_fs globals_data) globals_data dbg fs_fresh).2.st).2.tr =
        [.call (.fs_read_atomic_int "/data/.layout_version") true,
         .call (.access "/data/user/" R_OK) true,
         .call (.access "/data/user/0" R_OK) false,
         .call (.symlink "/data/data/" "/data/user/0") false] := by
  decide

set_option maxRecDepth 100000 in
/-- With the legacy directory `/data/data` in place, a second run on the
tree left by the first returns 0 and changes nothing. -/
theorem second_run_unchanged_with_legacy_dir :
    ∀ dbg : Bool,
      (initialize_directories (sys_fs globals_data) globals_data dbg fs_legacy).1 = 0 ∧
      (initialize_directories (sys_fs globals_data) globals_data dbg
        (initialize_directories (sys_fs globals_data) globals_data dbg fs_legacy).2.st).1 = 0 ∧
      (initialize_directories (sys_fs globals_data) globals_data dbg
        (initialize_directories (sys_fs globals_data) globals_data dbg fs_legacy).2.st).2.st =
        (initialize_directories (sys_fs globals_data) globals_data dbg fs_legacy).2.st := by
  decide

/-! ## C8: a run after an interrupted one -/

set_option maxRecDepth 100000 in
/-- C8 at version 0: from a data root of version 0 with `Music` in the media
root, an uninterrupted run leaves `/data/media/0/Music`. After the file
system changes of the step from 0 to 1 (`after_step0`) the marker is still
absent and `Music` is at `/data/media/0/Music`; a run from there returns 0
and has renamed the media root once more, leaving `Music` at
`/data/media/0/0/Music`. -/
theorem rerun_after_step0_nests_media :
    ∀ dbg : Bool,
      (initialize_directories (sys_fs globals_data) globals_data dbg fs_legacy).1 = 0 ∧
      ((initialize_directories (sys_fs globals_data) globals_data dbg fs_legacy).2.st.lstat
        ["data", "media", "0", "Music"]).isSome = true ∧
      fs_read_atomic_int (after_step0 globals_data dbg fs_legacy).st "/data/.layout_version" =
        none ∧
      ((after_step0 globals_data dbg fs_legacy).st.lstat
        ["data", "media", "0", "Music"]).isSome = true ∧
      (initialize_directories (sys_fs globals_data) globals_data dbg
        (after_step0 globals_data dbg fs_legacy).st).1 = 0 ∧
      (initialize_directories (sys_fs globals_data) globals_data dbg
        (after_step0 globals_data dbg fs_legacy).st).2.st.lstat
          ["data", "media", "0", "Music"] = none ∧
      ((initialize_directories (sys_fs globals_data) globals_data dbg
        (after_step0 globals_data dbg fs_legacy).st).2.st.lstat
          ["data", "media", "0", "0", "Music"]).isSome = true := by
  decide

/-! ## C11: the capabilities kept -/

theorem capdata_eq : capdata = [⟨0xCB, 0xCB, 0⟩, ⟨0, 0, 0⟩] := by decide

/-- With `MY_DEBUG_ROOT` undefined and the three calls before it
succeeding, `capset` is reached. -/
theorem drop_privileges_reaches_capset (env : PrivCall → Bool)
    (h1 : env (.prctl PR_SET_KEEPCAPS 1) = true) (h2 : env (.setgid AID_INSTALL) = true)
    (h3 : env (.setuid AID_INSTALL) = true) :
    (PrivCall.capset capheader capdata, env (.capset capheader capdata)) ∈
      (drop_privileges false env).calls := by
  unfold drop_privileges
  cases h4 : env (.capset capheader capdata) <;> simp [h1, h2, h3, h4]

/-- C11: whenever `drop_privileges` calls `capset`, the data it passes are
the two words with permitted = effective = `0xCB` and 0, inheritable 0 in
both; a capability (numbered below 64) is permitted exactly when it is one of
`CAP_CHOWN`, `CAP_DAC_OVERRIDE`, `CAP_FOWNER`, `CAP_SETGID`, `CAP_SETUID`; and
the calls made are, in this order, `prctl(PR_SET_KEEPCAPS, 1)`,
`setgid(AID_INSTALL)`, `setuid(AID_INSTALL)`, all three successful, and then
`capset`. -/
theorem drop_privileges_capset (dbg : Bool) (env : PrivCall → Bool) (hdr : cap_header)
    (data : List cap_data) (ok : Bool)
    (h : (PrivCall.capset hdr data, ok) ∈ (drop_privileges dbg env).calls) :
    data = [⟨0xCB, 0xCB, 0⟩, ⟨0, 0, 0⟩] ∧
    (∀ d ∈ data, d.effective = d.permitted ∧ d.inheritable = 0) ∧
    (∀ cap, cap < 64 →
      (((data.getD (CAP_TO_INDEX cap) ⟨0, 0, 0⟩).permitted.testBit (cap % 32) = true) ↔
        cap ∈ [CAP_CHOWN, CAP_DAC_OVERRIDE, CAP_FOWNER, CAP_SETGID, CAP_SETUID])) ∧
    (drop_privileges dbg env).calls =
      [(.prctl PR_SET_KEEPCAPS 1, true), (.setgid AID_INSTALL, true),
       (.setuid AID_INSTALL, true), (.capset hdr data, ok)] := by
  have hcalls : data = capdata ∧ (drop_privileges dbg env).calls =
      [(.prctl PR_SET_KEEPCAPS 1, true), (.setgid AID_INSTALL, true),
       (.setuid AID_INSTALL, true), (.capset hdr data, ok)] := by
    unfold drop_privileges at h ⊢
    cases dbg
    · cases h1 : env (.prctl PR_SET_KEEPCAPS 1) <;> cases h2 : env (.setgid AID_INSTALL) <;>
        cases h3 : env (.setuid AID_INSTALL) <;> cases h4 : env (.capset capheader capdata) <;>
        simp [h1, h2, h3, h4] at h ⊢ <;>
        (obtain ⟨⟨hh, hd⟩, hok⟩ := h; subst hh; subst hd; subst hok; simp)
    · simp at h
  obtain ⟨hd, hc⟩ := hcalls
  rw [capdata_eq] at hd
  subst hd
  refine ⟨rfl, by decide, by decide, hc⟩

/-- C11 on a system where every call succeeds. -/
theorem drop_privileges_capset_witness :
    capdata = [⟨0xCB, 0xCB, 0⟩, ⟨0, 0, 0⟩] ∧
    (∀ d ∈ capdata, d.effective = d.permitted ∧ d.inheritable = 0) ∧
    (∀ cap, cap < 64 →
      (((capdata.getD (CAP_TO_INDEX cap) ⟨0, 0, 0⟩).permitted.testBit (cap % 32) = true) ↔
        cap ∈ [CAP_CHOWN, CAP_DAC_OVERRIDE, CAP_FOWNER, CAP_SETGID, CAP_SETUID])) ∧
    (drop_privileges false (fun _ => true)).calls =
      [(.prctl PR_SET_KEEPCAPS 1, true), (.setgid AID_INSTALL, true),
       (.setuid AID_INSTALL, true), (.capset capheader capdata, true)] :=
  drop_privileges_capset false (fun _ => true) capheader capdata true (by decide)

/-! ## C12: the connection after too many tokens -/

set_option maxRecDepth 1000000 in
/-- C12, as stated, fails: on a connection that sends a request of nine
tokens and then `ping`, with the 1024-byte buffer of `main`, the turn for the
first request answers `"-1"` and goes round the loop again; the loop then
reads the second request on the same connection, calls `do_ping` and answers
`"0"`, and only leaves when the stream ends. -/
theorem connection_stays_open_after_too_many_tokens :
    (∃ buf1, conn_iter ext_zero
        ⟨17 :: 0 :: str "a b c d e f g h i" ++ (4 :: 0 :: str "ping"), [], 64⟩
        (List.replicate 1024 0) =
      .cont ⟨4 :: 0 :: str "ping", le16 2 ++ str "-1", 60⟩ buf1 none) ∧
    (serve_connection ext_zero 3
        ⟨17 :: 0 :: str "a b c d e f g h i" ++ (4 :: 0 :: str "ping"), [], 64⟩
        (List.replicate 1024 0) []).map (fun r => (r.1, r.2.2)) =
      some (⟨[], le16 2 ++ str "-1" ++ (le16 1 ++ str "0"), 57⟩, [(.do_ping, [])]) := by
  refine ⟨⟨_, rfl⟩, ?_⟩
  decide

/-- C12, amended: for every request of a declared length from 1 to 1023
whose payload is in the stream and on which the tokenizer reaches
`TOKEN_MAX` (it stops at `st`), when the reply `"-1"` and its NUL fit in the
buffer from the `cmd` pointer: no handler is called; the peer is sent the
four bytes 2, 0, `'-'`, `'1'` as far as it takes them; when it takes all four
(both calls of `writex` return 0) `execute` returns 0 and the turn goes round
the inner loop again, with the rest of the stream still to be read on the same
connection; the loop is left, and the socket closed, when a call of `writex`
returns -1. When the reply does not fit, `snprintf` stores behind the
buffer. -/
theorem conn_iter_too_many_tokens (ext : Ext) (s : Sock) (buf : Bytes) (b0 b1 : Nat)
    (payload rest1 : Bytes) (st : TokState)
    (hin : s.input = b0 :: b1 :: (payload ++ rest1))
    (hlen : payload.length = b0 + 256 * b1)
    (h1 : 1 ≤ payload.length) (h2 : payload.length < BUFFER_MAX)
    (htok : tokenize (payload ++ 0 :: buf.drop (payload.length + 1)) = .too_many st) :
    if st.p + 3 ≤ st.cmd.length then
      ∃ buf1, conn_iter ext s buf =
        if 4 ≤ s.wcap then
          .cont ⟨rest1, s.output ++ [2, 0, 45, 49], s.wcap - 4⟩ buf1 none
        else
          .brk_exec ⟨rest1, s.output ++ ([2, 0, 45, 49] : Bytes).take s.wcap, 0⟩ buf1 none
    else conn_iter ext s buf = .fault := by
  have hiter := conn_iter_valid_frame ext s buf b0 b1 payload rest1 hin hlen h1 h2
  have hex := execute_too_many ext { s with input := rest1 }
    (payload ++ 0 :: buf.drop (payload.length + 1)) st htok
  have htext : reply_text (-1) [] = [45, 49] := by decide
  split
  · rename_i hfit
    obtain ⟨out, o1, o2, o3, o4, o5, o6⟩ := execute_done_short { s with input := rest1 } st
      (-1) [] none (by rw [htext]; decide) (by rw [htext]; exact hfit)
    rw [htext] at o2 o5 o6
    simp only [List.length_cons, List.length_nil] at o2 o5 o6
    refine ⟨out.cmd, ?_⟩
    rw [hiter, hex, o1]
    obtain ⟨ret, ⟨i, o, w⟩, c, called⟩ := out
    simp only at o2 o3 o4 o5 o6
    subst o2 o3 o4 o5 o6
    by_cases hw : 4 ≤ s.wcap
    · have ht : ([2, 0, 45, 49] : Bytes).take s.wcap = [2, 0, 45, 49] :=
        List.take_of_length_le (by simpa using hw)
      simp [after_execute, hw, ht]
    · have hz : s.wcap - 4 = 0 := by omega
      simp [after_execute, hw, hz]
  · rename_i hfit
    rw [hiter, hex, execute_done_overflow _ st (-1) [] none (by rw [htext]; decide)
      (by rw [htext]; simp only [List.length_cons, List.length_nil]; omega)]
    rfl

set_option maxRecDepth 1000000 in
/-- C12, amended, at a request of nine tokens followed by `ping`, with the
1024-byte buffer of `main`. -/
theorem conn_iter_too_many_tokens_witness :
    if 16 + 3 ≤ (str "a" ++ 0 :: str "b" ++ 0 :: str "c" ++ 0 :: str "d" ++ 0 :: str "e" ++
        0 :: str "f" ++ 0 :: str "g" ++ 0 :: str "h" ++ 0 :: str "i" ++
        0 :: List.replicate 1006 0).length then
      ∃ buf1, conn_iter ext_zero
          ⟨17 :: 0 :: (str "a b c d e f g h i" ++ (4 :: 0 :: str "ping")), [], 64⟩
          (List.replicate 1024 0) =
        if 4 ≤ 64 then
          .cont ⟨4 :: 0 :: str "ping", [] ++ [2, 0, 45, 49], 64 - 4⟩ buf1 none
        else
          .brk_exec ⟨4 :: 0 :: str "ping", [] ++ ([2, 0, 45, 49] : Bytes).take 64, 0⟩ buf1 none
    else conn_iter ext_zero
        ⟨17 :: 0 :: (str "a b c d e f g h i" ++ (4 :: 0 :: str "ping")), [], 64⟩
        (List.replicate 1024 0) = .fault :=
  conn_iter_too_many_tokens ext_zero
    ⟨17 :: 0 :: (str "a b c d e f g h i" ++ (4 :: 0 :: str "ping")), [], 64⟩
    (List.replicate 1024 0) 17 0 (str "a b c d e f g h i") (4 :: 0 :: str "ping")
    ⟨str "a" ++ 0 :: str "b" ++ 0 :: str "c" ++ 0 :: str "d" ++ 0 :: str "e" ++
        0 :: str "f" ++ 0 :: str "g" ++ 0 :: str "h" ++ 0 :: str "i" ++
        0 :: List.replicate 1006 0, 16, 8, [0, 2, 4, 6, 8, 10, 12, 14, 16]⟩
    rfl (by decide) (by decide) (by decide) (by decide)

/-! ## C13: bytes behind the terminator -/

set_option maxRecDepth 1000000 in
/-- C13 at the request `"rmuser "` (declared length 7, ending in a space).
Two buffers that agree on the positions 0..7 (payload and terminator): the
tokenizer examines position 8 on both; with zeros behind the terminator
`execute` counts one argument, calls `do_rm_user` and answers `"0"`; with the
bytes `"a b"` behind the terminator it counts two arguments, calls no handler
and answers `"-1"`. On a connection, the same request is answered `"0"` when
it comes first and `"-1"` when it follows the request `"zzzzzzz  b"`, which
leaves a space at position 8 of the buffer of `main`. -/
theorem execute_depends_on_stale_bytes :
    (str "rmuser " ++ 0 :: List.replicate 8 0).take 8 =
      (str "rmuser " ++ 0 :: (str "a b" ++ List.replicate 5 0)).take 8 ∧
    8 ∈ tokenize_reads (str "rmuser " ++ 0 :: List.replicate 8 0) ∧
    8 ∈ tokenize_reads (str "rmuser " ++ 0 :: (str "a b" ++ List.replicate 5 0)) ∧
    (execute ext_zero ⟨[], [], 16⟩ (str "rmuser " ++ 0 :: List.replicate 8 0)).map
        (fun out => (out.called, out.s.output)) =
      some (some (.do_rm_user, [[]]), le16 1 ++ str "0") ∧
    (execute ext_zero ⟨[], [], 16⟩ (str "rmuser " ++ 0 :: (str "a b" ++ List.replicate 5 0))).map
        (fun out => (out.called, out.s.output)) =
      some (none, le16 2 ++ str "-1") ∧
    (serve_connection ext_zero 3 ⟨7 :: 0 :: str "rmuser ", [], 64⟩
        (List.replicate 1024 0) []).map (fun r => (r.1.output, r.2.2)) =
      some (le16 1 ++ str "0", [(.do_rm_user, [[]])]) ∧
    (serve_connection ext_zero 3
        ⟨10 :: 0 :: str "zzzzzzz  b" ++ (7 :: 0 :: str "rmuser "), [], 64⟩
        (List.replicate 1024 0) []).map (fun r => (r.1.output, r.2.2)) =
      some (le16 2 ++ str "-1" ++ (le16 2 ++ str "-1"), []) := by
  refine ⟨?_, ?_, ?_, ?_, ?_, ?_, ?_⟩ <;> decide

/-- A request that ends in a space, with nothing in the buffer behind the
terminator (a request of 1023 bytes in the 1024-byte buffer of `main`): the
tokenizer steps over the terminator and reads outside the buffer. -/
theorem tokenize_reads_outside_buffer (w : Bytes)
    (hw : ∀ b ∈ w, b ≠ 0 ∧ isspace b = false) :
    tokenize (w ++ [32, 0]) = .fault := by
  have h := tokenize_loop_plain w 3 0 [] [32, 0] [0] hw
  simp only [List.nil_append, List.length_nil, Nat.zero_add] at h
  have hl : (w ++ [32, 0]).length + 1 = 3 + w.length := by
    simp only [List.length_append, List.length_cons, List.length_nil]; omega
  unfold tokenize
  rw [hl, h]
  have hget : (w ++ [32, 0])[w.length]? = some 32 := getElem?_at_length w 32 [0]
  have hnone : (w ++ [0, 0])[w.length + 1 + 1]? = none :=
    List.getElem?_eq_none (by simp)
  simp [tokenize_loop, hget, isspace, TOKEN_MAX, hnone]

end Installd
